import Mathlib

/-! Catalogue Web App: offline cache service and service worker.

A shallow embedding of `src/offline-cache.js` (the IndexedDB-backed
`OfflineCacheService`), of the install, activate and fetch listeners of
`src/service-worker.js` and of the install and activate listeners of
`src/sw.js`, followed by the properties proved about them.

Modelling conventions.

* Promises are functions from the service state to the state after the
  promise settled, paired with how it settled (`Settled`).
* The platform (clock, IndexedDB request outcomes, string coercions) is a
  parameter `Platform`; the state counts the platform interactions made so
  far (`tick`), and the n-th interaction reads the n-th entry of the platform.
* `journal` is a ghost field: it lists, in order, the IndexedDB requests whose
  `onsuccess` fired with an effect on the store. No operation reads it.
* `console.log` / `console.warn` / `console.error` calls are omitted.
* Calls of the Cache API `caches.open`, `keys`, `delete` and `match` are
  taken to succeed. `cache.put` stores nothing when the platform rejects the
  pair (see `cachePutAccepts`), and `cache.addAll` rejects, and stores
  nothing, when a fetch fails, a response is not ok or a pair is rejected.
  Storage quota is outside the model.
-/

namespace Catalogue

/-! ## JavaScript values -/

/-- JavaScript values that the structured clone of IndexedDB stores. Numbers
are integers; floating point is outside the model. -/
inductive JSVal where
  | undefined
  | null
  | bool (b : Bool)
  | num (n : Int)
  | str (s : String)
  | arr (xs : List JSVal)
  | obj (fields : List (String × JSVal))

namespace JSVal

/-- ToBoolean, as used by `!v`, `v && w`, `v || w` and `if (v)`. -/
def truthy : JSVal → Bool
  | undefined => false
  | null => false
  | bool b => b
  | num n => n != 0
  | str s => s != ""
  | arr _ => true
  | obj _ => true

/-- Property read `v.length` on a value that is neither `null` nor
`undefined`. Strings and arrays have a numeric length, a plain object has
the property when it is one of its own fields, booleans and numbers have
none. (The length of a string is counted in code points here and in UTF-16
units in JavaScript; both are zero exactly for the empty string.) -/
def length : JSVal → JSVal
  | str s => num s.length
  | arr xs => num xs.length
  | obj fields => (fields.lookup "length").getD undefined
  | _ => undefined

/-- Strict comparison `v === 0`. -/
def isZero : JSVal → Bool
  | num n => n == 0
  | _ => false

/-- Relational comparison `v > 0`. Operands that need ToPrimitive or
StringToNumber (strings, arrays, objects) are decided by the parameter
`coerce`. -/
def gtZero (coerce : JSVal → Bool) : JSVal → Bool
  | undefined => false
  | null => false
  | bool b => b
  | num n => decide (0 < n)
  | v => coerce v

end JSVal

/-! ## The IndexedDB object store `appData` -/

/-- The record written by `save`: `{ key, data, timestamp }`. -/
structure CacheRecord where
  key : String
  data : JSVal
  timestamp : String

/-- The object store `appData`, with key path `key`: at most one record per
key. -/
abbrev ObjectStore := List CacheRecord

/-- Method `store.get(key)`: the record stored under `key`, if any. -/
def storeGet (store : ObjectStore) (key : String) : Option CacheRecord :=
  store.find? (fun r => r.key == key)

/-- Method `store.put(record)`: insert, replacing the record of the same key. -/
def storePut (store : ObjectStore) (record : CacheRecord) : ObjectStore :=
  record :: store.filter (fun r => r.key != record.key)

/-- What the platform supplies. -/
structure Platform where
  /-- Value of `new Date()` (epoch milliseconds) at the n-th interaction. -/
  clock : Nat → Int
  /-- Whether the IndexedDB request issued at the n-th interaction fires
  `onerror` (or its transaction throws) instead of `onsuccess`. -/
  requestFails : Nat → Bool
  /-- Method `Date.prototype.toISOString`. -/
  toISOString : Int → String
  /-- Outcome of `v > 0` for operands that need coercion, see `JSVal.gtZero`. -/
  coerceGtZero : JSVal → Bool

/-- Ghost record of a request that took effect on the object store. -/
inductive StoreEvent where
  | put (key : String) (data : JSVal)
  | cleared

/-- The fields of `OfflineCacheService`, with the ghost fields `tick` and
`journal`. `db` is `none` for `null`; `lastUpdated` is a `Date` in epoch
milliseconds; `onStatusChange` holds the handle of the registered callback. -/
structure OfflineCacheService where
  db : Option ObjectStore
  isOnline : Bool
  lastUpdated : Option Int
  onStatusChange : Option Nat
  tick : Nat
  journal : List StoreEvent

/-- How a promise settled. -/
inductive Settled (α : Type) where
  | resolved (value : α)
  | rejected

/-- An asynchronous method of the service, run to completion. -/
def Async (α : Type) : Type :=
  OfflineCacheService → OfflineCacheService × Settled α

namespace Async

/-- An already resolved promise. -/
def resolve {α : Type} (a : α) : Async α := fun s => (s, .resolved a)

/-- Sequencing by `await`: a rejection skips the continuation. -/
def andThen {α β : Type} (p : Async α) (f : α → Async β) : Async β := fun s =>
  match p s with
  | (s1, .resolved a) => f a s1
  | (s1, .rejected) => (s1, .rejected)

instance : Monad Async where
  pure := resolve
  bind := andThen

/-- Block `try { body } catch (error) { handler }`. -/
def tryCatch {α : Type} (body : Async α) (handler : Async α) : Async α := fun s =>
  match body s with
  | (s1, .resolved a) => (s1, .resolved a)
  | (s1, .rejected) => handler s1

/-- Call `Promise.all([...])` on promises created in list order: every one
of them runs, and the result rejects when one of them rejected. -/
def all {α : Type} : List (Async α) → Async (List α)
  | [] => resolve []
  | p :: ps => fun s =>
    match p s with
    | (s1, .resolved a) =>
      (match all ps s1 with
       | (s2, .resolved rest) => (s2, .resolved (a :: rest))
       | (s2, .rejected) => (s2, .rejected))
    | (s1, .rejected) => ((all ps s1).1, .rejected)

end Async

/-- The argument of `saveAppData` and the result of `loadAppData`. -/
structure AppData where
  settings : JSVal
  headers : JSVal
  items : JSVal
  columnConfig : JSVal
  layerConfig : JSVal
  layersData : JSVal
  tabsConfig : JSVal
  user : JSVal

/-- The argument of `saveTabData` and the result of `loadTabData`. -/
structure TabData where
  items : JSVal
  columnConfig : JSVal
  layerConfig : JSVal
  layersData : JSVal

/-- What `getLastUpdatedFormatted` returns: a string built by the method, or
the platform rendering `toLocaleDateString()` of a date. -/
inductive Display where
  | text (s : String)
  | localeDate (t : Int)

namespace OfflineCacheService

/-- The constructor: `db = null`, `isOnline = navigator.onLine`,
`lastUpdated = null`, `onStatusChange = null`. -/
def new (navigatorOnLine : Bool) : OfflineCacheService :=
  { db := none, isOnline := navigatorOnLine, lastUpdated := none,
    onStatusChange := none, tick := 0, journal := [] }

/-- The service after `init()` opened a database in which `onupgradeneeded`
has just created the empty object store. -/
def opened (navigatorOnLine : Bool) : OfflineCacheService :=
  { new navigatorOnLine with db := some [] }

/-- Method `_handleOnlineStatus(online)`: the new state and the callback
invocations made, each as (callback handle, argument). -/
def _handleOnlineStatus (online : Bool) (s : OfflineCacheService) :
    OfflineCacheService × List (Nat × Bool) :=
  let wasOnline := s.isOnline
  let s1 := { s with isOnline := online }
  match s1.onStatusChange with
  | some callback => if wasOnline != online then (s1, [(callback, online)]) else (s1, [])
  | none => (s1, [])

/-- Method `getOnlineStatus()`. -/
def getOnlineStatus (s : OfflineCacheService) : Bool := s.isOnline

/-- Method `getLastUpdated()`. -/
def getLastUpdated (s : OfflineCacheService) : Option Int := s.lastUpdated

/-- Method `save(key, data)`. -/
def save (env : Platform) (key : String) (data : JSVal) : Async Bool := fun s =>
  match s.db with
  | none => (s, .resolved false)
  | some store =>
    let record : CacheRecord :=
      { key := key, data := data, timestamp := env.toISOString (env.clock s.tick) }
    if env.requestFails s.tick then
      ({ s with tick := s.tick + 1 }, .rejected)
    else
      ({ s with db := some (storePut store record), tick := s.tick + 1,
                journal := s.journal ++ [.put key data] }, .resolved true)

/-- Method `get(key)`. -/
def get (env : Platform) (key : String) : Async JSVal := fun s =>
  match s.db with
  | none => (s, .resolved .null)
  | some store =>
    if env.requestFails s.tick then
      ({ s with tick := s.tick + 1 }, .rejected)
    else
      match storeGet store key with
      | some result => ({ s with tick := s.tick + 1 }, .resolved result.data)
      | none => ({ s with tick := s.tick + 1 }, .resolved .null)

/-- Statement `this.lastUpdated = new Date()`, returning the date. -/
def stampLastUpdated (env : Platform) : Async Int := fun s =>
  ({ s with lastUpdated := some (env.clock s.tick), tick := s.tick + 1 },
   .resolved (env.clock s.tick))

/-- Method `saveAppData(data)`. -/
def saveAppData (env : Platform) (data : AppData) : Async Bool :=
  Async.tryCatch
    (do
      let _ ← save env "settings" data.settings
      let _ ← save env "headers" data.headers
      let _ ← save env "items" data.items
      let _ ← save env "columnConfig" data.columnConfig
      let _ ← save env "layerConfig" data.layerConfig
      let _ ← save env "layersData" data.layersData
      let _ ← save env "tabsConfig" data.tabsConfig
      let _ ← save env "user" data.user
      let lastUpdated ← stampLastUpdated env
      let _ ← save env "_metadata"
        (.obj [("lastUpdated", .str (env.toISOString lastUpdated)), ("version", .num 1)])
      pure true)
    (pure false)

/-- Method `loadAppData()`; `none` is `null`. -/
def loadAppData (env : Platform) : Async (Option AppData) :=
  Async.tryCatch
    (do
      let values ← Async.all
        [get env "settings", get env "headers", get env "items", get env "columnConfig",
         get env "layerConfig", get env "layersData", get env "tabsConfig", get env "user"]
      match values with
      | [settings, headers, items, columnConfig, layerConfig, layersData, tabsConfig, user] =>
        if !items.truthy || items.length.isZero then
          pure none
        else
          pure (some { settings := settings, headers := headers, items := items,
                       columnConfig := columnConfig, layerConfig := layerConfig,
                       layersData := layersData, tabsConfig := tabsConfig, user := user })
      | _ => pure none)
    (pure none)

/-- Template literal for the keys of a tab, with the suffix after the
second underscore. -/
def tabKey (tabIndex : Nat) (field : String) : String :=
  "tab_" ++ toString tabIndex ++ "_" ++ field

/-- Method `saveTabData(tabIndex, data)`. -/
def saveTabData (env : Platform) (tabIndex : Nat) (data : TabData) : Async Bool :=
  Async.tryCatch
    (do
      let _ ← save env (tabKey tabIndex "items") data.items
      let _ ← save env (tabKey tabIndex "columnConfig") data.columnConfig
      let _ ← save env (tabKey tabIndex "layerConfig") data.layerConfig
      let _ ← save env (tabKey tabIndex "layersData") data.layersData
      pure true)
    (pure false)

/-- Method `loadTabData(tabIndex)`; `none` is `null`. -/
def loadTabData (env : Platform) (tabIndex : Nat) : Async (Option TabData) :=
  Async.tryCatch
    (do
      let values ← Async.all
        [get env (tabKey tabIndex "items"), get env (tabKey tabIndex "columnConfig"),
         get env (tabKey tabIndex "layerConfig"), get env (tabKey tabIndex "layersData")]
      match values with
      | [items, columnConfig, layerConfig, layersData] =>
        if !items.truthy then
          pure none
        else
          pure (some { items := items, columnConfig := columnConfig,
                       layerConfig := layerConfig, layersData := layersData })
      | _ => pure none)
    (pure none)

/-- Method `hasCache()`: the value of `items && items.length > 0`. -/
def hasCache (env : Platform) : Async JSVal := do
  let items ← get env "items"
  pure (if items.truthy then .bool (items.length.gtZero env.coerceGtZero) else items)

/-- Method `clearCache()`. -/
def clearCache (env : Platform) : Async Bool := fun s =>
  match s.db with
  | none => (s, .resolved false)
  | some _ =>
    if env.requestFails s.tick then
      ({ s with tick := s.tick + 1 }, .rejected)
    else
      ({ s with db := some [], lastUpdated := none, tick := s.tick + 1,
                journal := s.journal ++ [.cleared] }, .resolved true)

/-- Method `getLastUpdatedFormatted()`, with the state after its call of
`new Date()`. `Math.floor(diff / k)` is `Int.fdiv diff k`. -/
def getLastUpdatedFormatted (env : Platform) (s : OfflineCacheService) :
    OfflineCacheService × Display :=
  match s.lastUpdated with
  | none => (s, .text "Never")
  | some lastUpdated =>
    let now := env.clock s.tick
    let s1 := { s with tick := s.tick + 1 }
    let diff := now - lastUpdated
    let minutes := Int.fdiv diff 60000
    let hours := Int.fdiv diff 3600000
    let days := Int.fdiv diff 86400000
    if minutes < 1 then (s1, .text "Just now")
    else if minutes < 60 then (s1, .text (toString minutes ++ "m ago"))
    else if hours < 24 then (s1, .text (toString hours ++ "h ago"))
    else if days < 7 then (s1, .text (toString days ++ "d ago"))
    else (s1, .localeDate lastUpdated)

end OfflineCacheService

/-! ## Notions used to state the properties -/

/-- The payloads that hold no items: `undefined`, `null`, `false`, `0`, the
empty string, the empty array, and an object whose `length` is `0`. -/
def JSVal.emptyPayload : JSVal → Prop
  | .undefined => True
  | .null => True
  | .bool b => b = false
  | .num n => n = 0
  | .str s => s = ""
  | .arr xs => xs = []
  | .obj fields => ∃ n, fields.lookup "length" = some (.num n) ∧ n = 0

/-- The payload stored under `key`, and `null` when there is no record. -/
def readOf (store : ObjectStore) (key : String) : JSVal :=
  match storeGet store key with
  | some r => r.data
  | none => .null

/-- The payload last put under `key` since the store was created or last
cleared, read off the journal. -/
def lastWritten (key : String) (journal : List StoreEvent) : Option JSVal :=
  journal.foldl
    (fun acc e =>
      match e with
      | .put k v => if k = key then some v else acc
      | .cleared => none)
    none

/-- A call of a method of the service. -/
inductive Call where
  | save (key : String) (data : JSVal)
  | get (key : String)
  | saveAppData (data : AppData)
  | loadAppData
  | saveTabData (tabIndex : Nat) (data : TabData)
  | loadTabData (tabIndex : Nat)
  | hasCache
  | clearCache
  | getLastUpdatedFormatted
  | handleOnlineStatus (online : Bool)

/-- The state after one call. -/
def OfflineCacheService.call (env : Platform) :
    Call → OfflineCacheService → OfflineCacheService
  | .save key data, s => (OfflineCacheService.save env key data s).1
  | .get key, s => (OfflineCacheService.get env key s).1
  | .saveAppData data, s => (OfflineCacheService.saveAppData env data s).1
  | .loadAppData, s => (OfflineCacheService.loadAppData env s).1
  | .saveTabData tabIndex data, s => (OfflineCacheService.saveTabData env tabIndex data s).1
  | .loadTabData tabIndex, s => (OfflineCacheService.loadTabData env tabIndex s).1
  | .hasCache, s => (OfflineCacheService.hasCache env s).1
  | .clearCache, s => (OfflineCacheService.clearCache env s).1
  | .getLastUpdatedFormatted, s => (OfflineCacheService.getLastUpdatedFormatted env s).1
  | .handleOnlineStatus online, s => (OfflineCacheService._handleOnlineStatus online s).1

/-- The state after a sequence of calls, each run to completion before the
next. -/
def OfflineCacheService.run (env : Platform) (calls : List Call)
    (s : OfflineCacheService) : OfflineCacheService :=
  calls.foldl (fun state c => OfflineCacheService.call env c state) s

/-- The store is open and holds, under every key, the payload last written. -/
def StoreAgrees (s : OfflineCacheService) : Prop :=
  ∃ store, s.db = some store ∧
    ∀ key, (storeGet store key).map (fun r => r.data) = lastWritten key s.journal

/-- The promise `p` keeps the state property `P`. -/
def Keeps {α : Type} (P : OfflineCacheService → Prop) (p : Async α) : Prop :=
  ∀ s, P s → P (p s).1

/-- The number that a list of decimal digits denotes, continuing from
`start`. -/
def digitsValue (cs : List Char) (start : Nat) : Nat :=
  cs.foldl (fun a c => a * 10 + (c.toNat - 48)) start

/-- The keys of the snapshot written by `saveAppData`. -/
def snapshotKeys : List String :=
  ["settings", "headers", "items", "columnConfig", "layerConfig", "layersData",
   "tabsConfig", "user", "_metadata"]

/-- The four keys of the tab `tabIndex`. -/
def tabKeys (tabIndex : Nat) : List String :=
  [OfflineCacheService.tabKey tabIndex "items",
   OfflineCacheService.tabKey tabIndex "columnConfig",
   OfflineCacheService.tabKey tabIndex "layerConfig",
   OfflineCacheService.tabKey tabIndex "layersData"]

/-- The data of a tab with one item. -/
def sampleTab : TabData :=
  { items := .arr [.arr [.str "a"]], columnConfig := .obj [], layerConfig := .null,
    layersData := .arr [] }

/-- The data of a tab whose `items` is `null`. -/
def tabWithoutItems : TabData :=
  { items := .null, columnConfig := .obj [], layerConfig := .obj [], layersData := .arr [] }

/-- A platform on which no request fails; the clock shows one minute per
interaction. -/
def steadyPlatform : Platform :=
  { clock := fun n => 60000 * n, requestFails := fun _ => false,
    toISOString := fun t => toString t, coerceGtZero := fun _ => false }

/-- The raw platform signals `signals`, delivered in order to
`_handleOnlineStatus`: the final state and all callback invocations made. -/
def OfflineCacheService.deliver :
    List Bool → OfflineCacheService → OfflineCacheService × List (Nat × Bool)
  | [], s => (s, [])
  | online :: rest, s =>
    let step := OfflineCacheService._handleOnlineStatus online s
    let later := OfflineCacheService.deliver rest step.1
    (later.1, step.2 ++ later.2)

/-- A platform whose third request fails. -/
def faultyPlatform : Platform :=
  { clock := fun n => 60000 * n, requestFails := fun n => n == 2,
    toISOString := fun t => toString t, coerceGtZero := fun _ => false }

/-- A bundle with two items. -/
def sampleData : AppData :=
  { settings := .obj [("appName", .str "Catalogue")], headers := .arr [.str "Name"],
    items := .arr [.arr [.str "a"], .arr [.str "b"]], columnConfig := .null,
    layerConfig := .undefined, layersData := .obj [], tabsConfig := .arr [],
    user := .obj [("email", .str "u@example.org")] }

/-- A store that holds two items and no other key. -/
def sampleStore : ObjectStore :=
  [{ key := "items", data := .arr [.num 1, .num 2], timestamp := "t0" }]

/-- The freshly opened service after `saveAppData(sampleData)`. -/
def savedService : OfflineCacheService :=
  (OfflineCacheService.saveAppData steadyPlatform sampleData
    (OfflineCacheService.opened true)).1

/-- The service opened on `sampleStore`. -/
def sampleService : OfflineCacheService :=
  { OfflineCacheService.opened true with db := some sampleStore }

/-! ## The service worker `service-worker.js` -/

namespace ServiceWorker

/-- The parts of `new URL(request.url)` that the worker reads, with the
whole URL `href`. -/
structure Url where
  href : String
  protocol : String
  hostname : String
  searchParams : List (String × String)
deriving DecidableEq

/-- A `Request`. -/
structure Request where
  method : String
  url : Url
deriving DecidableEq

/-- A `Response`. -/
structure Response where
  status : Nat
  statusText : String
  headers : List (String × String)
  body : String
deriving DecidableEq

/-- Getter `response.ok`: the status is in the range 200 to 299. -/
def Response.ok (response : Response) : Bool :=
  decide (200 ≤ response.status) && decide (response.status ≤ 299)

/-- A cache partition: request and response pairs, in insertion order. -/
abbrev Cache := List (Request × Response)

/-- The `caches` object: named partitions, in creation order. -/
abbrev CacheStorage := List (String × Cache)

def CACHE_NAME : String := "catalogue-pwa-v10-0"

def RUNTIME_CACHE : String := "catalogue-runtime-v10-0"

def IMAGE_CACHE : String := "catalogue-images-v10-0"

/-- Method `s.startsWith(t)` of a string. -/
def startsWith (s t : String) : Bool := t.data.isPrefixOf s.data

/-- Method `s.includes(t)` of a string: `t` occurs in `s` as a substring. -/
def includes (s t : String) : Bool := s.data.tails.any (fun rest => t.data.isPrefixOf rest)

/-- Method `searchParams.has(name)`. -/
def searchParamsHas (params : List (String × String)) (name : String) : Bool :=
  params.any (fun p => p.1 == name)

/-- The URL of a request as the Cache API compares it: `href` without its
fragment. -/
def cacheUrl (request : Request) : List Char :=
  request.url.href.data.takeWhile (fun c => c != '#')

/-- Whether a stored request answers `request`: same URL, fragments left
out. (Requests carry no headers in this model, so the comparison of the
headers named by `Vary` is left out.) -/
def requestMatches (request stored : Request) : Bool :=
  cacheUrl stored == cacheUrl request

/-- The members of a comma-separated header value. -/
def splitComma : List Char → List (List Char)
  | [] => [[]]
  | c :: rest =>
    if c = ',' then [] :: splitComma rest
    else
      match splitComma rest with
      | first :: more => (c :: first) :: more
      | [] => [[c]]

/-- A member of a header value without the spaces and tabs around it. -/
def trimSpace (cs : List Char) : List Char :=
  ((cs.dropWhile (fun c => c == ' ' || c == Char.ofNat 9)).reverse.dropWhile
    (fun c => c == ' ' || c == Char.ofNat 9)).reverse

/-- Whether the response has a `Vary` header with the member `*`. -/
def varyStar (response : Response) : Bool :=
  response.headers.any (fun h =>
    h.1.data.map Char.toLower == "vary".data &&
      (splitComma h.2.data).any (fun member => trimSpace member == ['*']))

/-- Whether `cache.put(request, response)` stores the pair. The platform
rejects the call, and stores nothing, for a request whose scheme is not
http or https or whose method is not GET, for a response with status 206
and for a response with a `Vary: *` header. -/
def cachePutAccepts (request : Request) (response : Response) : Bool :=
  (request.url.protocol == "http:" || request.url.protocol == "https:") &&
    request.method == "GET" && response.status != 206 && !varyStar response

/-- The entries of the partition `name`; none when it does not exist. -/
def partition (caches : CacheStorage) (name : String) : Cache :=
  (caches.lookup name).getD []

/-- Method `caches.open(name)`: the partition is created empty when it does
not exist. -/
def cachesOpen (caches : CacheStorage) (name : String) : CacheStorage :=
  match caches.lookup name with
  | some _ => caches
  | none => caches ++ [(name, [])]

/-- Method `cache.match(request)` on one partition. -/
def cacheMatch (cache : Cache) (request : Request) : Option Response :=
  (cache.find? (fun e => requestMatches request e.1)).map Prod.snd

/-- The storing step of `cache.put(request, response)` on one partition: the
entry that answers the request is replaced, or the pair is added. -/
def cachePut (cache : Cache) (request : Request) (response : Response) : Cache :=
  if (cache.any (fun e => requestMatches request e.1)) then
    cache.map (fun e => if requestMatches request e.1 then (request, response) else e)
  else cache ++ [(request, response)]

/-- Method `cache.put(request, response)` on the partition `name` of
`caches`: the pair is stored when the platform accepts it, and the cache
storage is left as it is when the call is rejected. -/
def putIn (caches : CacheStorage) (name : String) (request : Request)
    (response : Response) : CacheStorage :=
  if cachePutAccepts request response then
    caches.map (fun c => if c.1 == name then (c.1, cachePut c.2 request response) else c)
  else caches

/-- Method `caches.match(request)`: the first match over all partitions, in
creation order. -/
def cachesMatch (caches : CacheStorage) (request : Request) : Option Response :=
  caches.findSome? (fun c => cacheMatch c.2 request)

/-- The three ways the fetch listener treats a request. -/
inductive Strategy where
  | notIntercepted
  | staleWhileRevalidate
  | networkFirst
deriving DecidableEq

/-- The conditions of the fetch listener, in its order: which branch
handles the request. -/
def strategy (request : Request) : Strategy :=
  if request.method != "GET" then .notIntercepted
  else if !(startsWith request.url.protocol "http") then .notIntercepted
  else if includes request.url.hostname "script.google.com" ||
      includes request.url.hostname "script.googleusercontent.com" then
    if searchParamsHas request.url.searchParams "img" then .staleWhileRevalidate
    else .notIntercepted
  else .networkFirst

/-- The response built when neither the network nor a cache answers. -/
def offlineResponse : Response :=
  { status := 503, statusText := "Service Unavailable",
    headers := [("Content-Type", "text/plain")],
    body := "Offline - Content not available" }

/-- The promise given to `respondWith` in the image branch. `network` is the
outcome of `fetch(request)`: a response, or `none` when it rejects. The
result is the cache storage once the refresh has finished and the value the
promise resolves with (`none` for `undefined`). -/
def staleWhileRevalidate (network : Option Response) (request : Request)
    (caches : CacheStorage) : CacheStorage × Settled (Option Response) :=
  let caches1 := cachesOpen caches IMAGE_CACHE
  let cachedResponse := cacheMatch (partition caches1 IMAGE_CACHE) request
  let fetchPromise : CacheStorage × Option Response :=
    match network with
    | some networkResponse =>
      if networkResponse.ok then
        (putIn caches1 IMAGE_CACHE request networkResponse, some networkResponse)
      else (caches1, some networkResponse)
    | none => (caches1, cachedResponse)
  match cachedResponse with
  | some cached => (fetchPromise.1, .resolved (some cached))
  | none => (fetchPromise.1, .resolved fetchPromise.2)

/-- The promise given to `respondWith` in the last branch of the listener,
with the cache storage once the detached `cache.put` has finished. -/
def networkFirst (network : Option Response) (request : Request)
    (caches : CacheStorage) : CacheStorage × Settled (Option Response) :=
  match network with
  | some response =>
    if response.status != 200 then (caches, .resolved (some response))
    else
      (putIn (cachesOpen caches RUNTIME_CACHE) RUNTIME_CACHE request response,
       .resolved (some response))
  | none =>
    match cachesMatch caches request with
    | some cachedResponse => (caches, .resolved (some cachedResponse))
    | none => (caches, .resolved (some offlineResponse))

/-- The fetch listener: `none` when it returns without `respondWith`. -/
def onFetch (network : Option Response) (request : Request) (caches : CacheStorage) :
    Option (CacheStorage × Settled (Option Response)) :=
  match strategy request with
  | .notIntercepted => none
  | .staleWhileRevalidate => some (staleWhileRevalidate network request caches)
  | .networkFirst => some (networkFirst network request caches)

/-! ### Lifecycle events -/

/-- What an install listener leaves behind: the cache storage, how the
promise handed to `event.waitUntil` settled, and whether
`self.skipWaiting()` was called. -/
structure InstallOutcome where
  caches : CacheStorage
  waitUntil : Settled Unit
  skipWaiting : Bool

/-- What an activate listener leaves behind: the cache storage, how the
promise handed to `event.waitUntil` settled, and whether
`self.clients.claim()` was called. -/
structure ActivateOutcome where
  caches : CacheStorage
  waitUntil : Settled Unit
  clientsClaim : Bool

/-- Method `caches.keys()`: the names of the partitions. -/
def cachesKeys (caches : CacheStorage) : List String := caches.map Prod.fst

/-- Method `caches.delete(name)`. -/
def cachesDelete (caches : CacheStorage) (name : String) : CacheStorage :=
  caches.filter (fun c => c.1 != name)

/-- The partition `name` of `caches` replaced by `cache`. -/
def setPartition (caches : CacheStorage) (name : String) (cache : Cache) : CacheStorage :=
  caches.map (fun c => if c.1 == name then (c.1, cache) else c)

/-- Method `cache.addAll(requests)` on one partition. `network` is the
outcome of fetching a request: a response, or `none` when the fetch rejects.
Every request is fetched; when one fetch rejects, one response is not ok or
one pair is not accepted by `cache.put`, the method rejects (`none`) and
stores nothing, otherwise all the pairs are put. -/
def cacheAddAll (network : Request → Option Response) (cache : Cache)
    (requests : List Request) : Option Cache :=
  if requests.all (fun r =>
      match network r with
      | some response => response.ok && cachePutAccepts r response
      | none => false) then
    some (requests.foldl
      (fun c r =>
        match network r with
        | some response => cachePut c r response
        | none => c)
      cache)
  else none

def PRECACHE_ASSETS : List String :=
  ["./", "./index.html", "./manifest.json", "./api-config.js", "./api-client.js",
   "./offline-cache.js"]

/-- The install listener. `resolveUrl` turns an entry of the manifest
into the request that `addAll` makes for it. The chain has no `catch`: a
rejection of `addAll` is the rejection of the promise handed to `waitUntil`. -/
def install (resolveUrl : String → Request) (network : Request → Option Response)
    (caches : CacheStorage) : InstallOutcome :=
  let caches1 := cachesOpen caches CACHE_NAME
  match cacheAddAll network (partition caches1 CACHE_NAME) (PRECACHE_ASSETS.map resolveUrl) with
  | some filled =>
    { caches := setPartition caches1 CACHE_NAME filled, waitUntil := .resolved (),
      skipWaiting := true }
  | none => { caches := caches1, waitUntil := .rejected, skipWaiting := false }

/-- The constant `currentCaches` of the activate listener. -/
def currentCaches : List String := [CACHE_NAME, RUNTIME_CACHE, IMAGE_CACHE]

/-- The activate listener: the names that are not current are filtered out
of `caches.keys()` and each is deleted; then the clients are claimed. -/
def activate (caches : CacheStorage) : ActivateOutcome :=
  let cacheNames := cachesKeys caches
  let old := cacheNames.filter (fun cacheName => !currentCaches.contains cacheName)
  { caches := old.foldl cachesDelete caches, waitUntil := .resolved (),
    clientsClaim := true }

/-- The request that the worker at `https://catalogue.example.org/` makes
for an entry of its manifest. -/
def sampleResolveUrl (url : String) : Request :=
  { method := "GET",
    url := { href := "https://catalogue.example.org/" ++ url, protocol := "https:",
             hostname := "catalogue.example.org", searchParams := [] } }

/-- An image request to a user-content host of the data service. -/
def userContentImage : Request :=
  { method := "GET",
    url := { href := "https://n-abc-script.googleusercontent.com/userCodeAppPanel?img=7",
             protocol := "https:", hostname := "n-abc-script.googleusercontent.com",
             searchParams := [("img", "7")] } }

/-- A request for the page of the application. -/
def shellRequest : Request :=
  { method := "GET",
    url := { href := "https://catalogue.example.org/index.html", protocol := "https:",
             hostname := "catalogue.example.org", searchParams := [] } }

/-- A response with status 200. -/
def okResponse : Response :=
  { status := 200, statusText := "OK", headers := [], body := "fresh" }

/-- A response with status 200 and the header `Vary: *`. -/
def varyStarResponse : Response :=
  { status := 200, statusText := "OK", headers := [("Vary", "*")], body := "page" }

/-- A response with status 206. -/
def rangeResponse : Response :=
  { status := 206, statusText := "Partial Content", headers := [], body := "part" }

/-- A request for the page of the application, with a fragment. -/
def shellRequestAtTop : Request :=
  { method := "GET",
    url := { href := "https://catalogue.example.org/index.html#top", protocol := "https:",
             hostname := "catalogue.example.org", searchParams := [] } }

end ServiceWorker

/-! ## The older service worker `sw.js` -/

namespace Sw

open ServiceWorker

def CACHE_NAME : String := "catalogue-v1.0.0"

def RUNTIME_CACHE : String := "catalogue-runtime-v1.0.0"

def PRECACHE_URLS : List String :=
  ["./", "./index.html", "./manifest.json", "./icon-192.png", "./icon-512.png"]

/-- The install listener of `sw.js`. `resolveUrl` turns an entry of the
manifest into `new Request(url, {cache: 'reload'})`. The chain ends in a
`catch` that logs the error, so the promise handed to `waitUntil` resolves
also when `addAll` rejected. -/
def install (resolveUrl : String → Request) (network : Request → Option Response)
    (caches : CacheStorage) : InstallOutcome :=
  let caches1 := cachesOpen caches CACHE_NAME
  match cacheAddAll network (partition caches1 CACHE_NAME) (PRECACHE_URLS.map resolveUrl) with
  | some filled =>
    { caches := setPartition caches1 CACHE_NAME filled, waitUntil := .resolved (),
      skipWaiting := true }
  | none => { caches := caches1, waitUntil := .resolved (), skipWaiting := false }

/-- The activate listener of `sw.js`: every name of `caches.keys()` that is
neither `CACHE_NAME` nor `RUNTIME_CACHE` is deleted; then the clients are
claimed. -/
def activate (caches : CacheStorage) : ActivateOutcome :=
  let cacheNames := cachesKeys caches
  { caches := cacheNames.foldl
      (fun cs cacheName =>
        if cacheName != CACHE_NAME && cacheName != RUNTIME_CACHE then cachesDelete cs cacheName
        else cs)
      caches,
    waitUntil := .resolved (), clientsClaim := true }

end Sw

/-! ## Properties of the object store model -/

section StoreLemmas

theorem find_filter_other (store : ObjectStore) (k key : String) (h : ¬ k = key) :
    List.find? (fun r => r.key == key) (store.filter (fun r => r.key != k)) =
      List.find? (fun r => r.key == key) store := by
  induction store with
  | nil => rfl
  | cons a rest ih =>
    by_cases ha : a.key = k
    · have hk : ¬ a.key = key := fun h2 => h (ha ▸ h2)
      rw [List.filter_cons_of_neg (by simp [ha]), List.find?_cons_of_neg _ (by simp [hk])]
      exact ih
    · rw [List.filter_cons_of_pos (by simp [ha])]
      by_cases hk : a.key = key
      · rw [List.find?_cons_of_pos _ (by simp [hk]), List.find?_cons_of_pos _ (by simp [hk])]
      · rw [List.find?_cons_of_neg _ (by simp [hk]), List.find?_cons_of_neg _ (by simp [hk])]
        exact ih

theorem storeGet_storePut (store : ObjectStore) (r : CacheRecord) (key : String) :
    storeGet (storePut store r) key = if r.key = key then some r else storeGet store key := by
  unfold storeGet storePut
  by_cases h : r.key = key
  · simp [h]
  · simp only [h, if_false]
    rw [List.find?_cons_of_neg _ (by simpa using h)]
    exact find_filter_other store r.key key h

theorem string_length_eq_zero (s : String) (h : s.length = 0) : s = "" := by
  cases s with
  | mk cs =>
    cases cs with
    | nil => rfl
    | cons c cs => simp [String.length] at h

theorem emptyPayload_iff (v : JSVal) :
    (!v.truthy || v.length.isZero) = true ↔ v.emptyPayload := by
  cases v with
  | undefined => simp [JSVal.truthy, JSVal.emptyPayload]
  | null => simp [JSVal.truthy, JSVal.emptyPayload]
  | bool b => cases b <;> simp [JSVal.truthy, JSVal.emptyPayload, JSVal.length, JSVal.isZero]
  | num n =>
    by_cases h : n = 0 <;> simp [JSVal.truthy, JSVal.emptyPayload, JSVal.length, JSVal.isZero, h]
  | str s =>
    by_cases h : s = ""
    · simp [JSVal.truthy, JSVal.emptyPayload, JSVal.length, JSVal.isZero, h]
    · have hl : ¬ s.length = 0 := fun h0 => h (string_length_eq_zero s h0)
      simp [JSVal.truthy, JSVal.emptyPayload, JSVal.length, JSVal.isZero, h, hl]
  | arr xs =>
    cases xs <;> simp [JSVal.truthy, JSVal.emptyPayload, JSVal.length, JSVal.isZero]
    omega
  | obj fields =>
    simp only [JSVal.truthy, JSVal.emptyPayload, JSVal.length]
    cases h : fields.lookup "length" with
    | none => simp [JSVal.isZero]
    | some w => cases w <;> simp [JSVal.isZero]

theorem get_ok (env : Platform) (s : OfflineCacheService) (store : ObjectStore) (key : String)
    (hdb : s.db = some store) (h : env.requestFails s.tick = false) :
    OfflineCacheService.get env key s =
      ({ s with tick := s.tick + 1 }, .resolved (readOf store key)) := by
  unfold OfflineCacheService.get readOf
  rw [hdb]
  simp only [h]
  cases storeGet store key <;> simp

theorem loadAppData_ok (env : Platform) (s : OfflineCacheService) (store : ObjectStore)
    (hdb : s.db = some store) (hreads : ∀ i, i < 8 → env.requestFails (s.tick + i) = false) :
    (OfflineCacheService.loadAppData env s).2 =
      if (!(readOf store "items").truthy || (readOf store "items").length.isZero) then
        .resolved none
      else .resolved (some ⟨readOf store "settings", readOf store "headers",
        readOf store "items", readOf store "columnConfig", readOf store "layerConfig",
        readOf store "layersData", readOf store "tabsConfig", readOf store "user"⟩) := by
  have h0 := hreads 0 (by omega)
  have h1 := hreads 1 (by omega)
  have h2 := hreads 2 (by omega)
  have h3 := hreads 3 (by omega)
  have h4 := hreads 4 (by omega)
  have h5 := hreads 5 (by omega)
  have h6 := hreads 6 (by omega)
  have h7 := hreads 7 (by omega)
  obtain ⟨db, isOnline, lastUpdated, cb, tick, journal⟩ := s
  simp only at hdb h0 h1 h2 h3 h4 h5 h6 h7
  subst hdb
  simp only [Nat.add_zero] at h0
  have hg : ∀ (key : String) (t : Nat), env.requestFails t = false →
      OfflineCacheService.get env key ⟨some store, isOnline, lastUpdated, cb, t, journal⟩ =
        (⟨some store, isOnline, lastUpdated, cb, t + 1, journal⟩, .resolved (readOf store key)) :=
    fun key t ht => get_ok env _ store key rfl ht
  simp only [OfflineCacheService.loadAppData, Async.tryCatch, bind, Async.andThen, Async.all,
    hg, h0, h1, h2, h3, h4, h5, h6, h7, Nat.add_assoc, Nat.reduceAdd, pure, Async.resolve]
  by_cases hc : (!(readOf store "items").truthy || (readOf store "items").length.isZero) = true
  · rw [if_pos hc, if_pos hc]; rfl
  · rw [if_neg hc, if_neg hc]; rfl

end StoreLemmas

/-! ## Snapshot round trip and loading -/

open OfflineCacheService in
/-- C1. On an opened store on which no request fails, `saveAppData(data)`
with a non-empty array of items returns `true`, and the `loadAppData()` that
follows returns a bundle whose eight fields are the ones written. -/
theorem saveAppData_loadAppData_roundtrip (env : Platform) (s : OfflineCacheService)
    (store : ObjectStore) (data : AppData) (x : JSVal) (xs : List JSVal)
    (hdb : s.db = some store) (hitems : data.items = .arr (x :: xs))
    (hok : ∀ n, s.tick ≤ n → env.requestFails n = false) :
    (saveAppData env data s).2 = .resolved true ∧
    (loadAppData env (saveAppData env data s).1).2 = .resolved (some data) := by
  obtain ⟨db, isOnline, lastUpdated, cb, tick, journal⟩ := s
  simp only at hdb hok
  subst hdb
  obtain ⟨a1, a2, a3, a4, a5, a6, a7, a8⟩ := data
  simp only at hitems
  subst hitems
  have hok2 : ∀ i, env.requestFails (tick + i) = false := fun i => hok _ (by omega)
  have h0 := hok tick le_rfl
  simp [saveAppData, Async.tryCatch, bind, Async.andThen, save, stampLastUpdated, pure,
    Async.resolve, Nat.add_assoc, hok2, h0]
  simp [loadAppData, Async.tryCatch, bind, Async.andThen, OfflineCacheService.get, Async.all,
    pure, Async.resolve, Nat.add_assoc, hok2, storeGet_storePut, JSVal.truthy, JSVal.length,
    JSVal.isZero]
  have hne : ¬ ((xs.length : Int) + 1 = 0) := by omega
  simp [hne, Async.resolve]

open OfflineCacheService in
/-- C1, at a concrete input: the sample bundle written to a freshly opened
store is read back whole. -/
theorem saveAppData_loadAppData_roundtrip_witness :
    (saveAppData steadyPlatform sampleData (opened true)).2 = .resolved true ∧
    (loadAppData steadyPlatform (saveAppData steadyPlatform sampleData (opened true)).1).2
      = .resolved (some sampleData) :=
  saveAppData_loadAppData_roundtrip steadyPlatform (opened true) [] sampleData
    (.arr [.str "a"]) [.arr [.str "b"]] rfl rfl (fun _ _ => rfl)

open OfflineCacheService in
/-- C2. On an opened store whose eight reads succeed, `loadAppData()`
returns `null` exactly when there is no `items` record or its payload is
empty (for an array payload: exactly when the array is empty), whatever the
other keys hold; it never rejects, and a bundle it returns carries for each
of the eight keys what `get` returns for it, which is `null` for a key
without a record. -/
theorem loadAppData_null_iff_items_absent_or_empty (env : Platform)
    (s : OfflineCacheService) (store : ObjectStore) (hdb : s.db = some store)
    (hreads : ∀ i, i < 8 → env.requestFails (s.tick + i) = false) :
    ((loadAppData env s).2 = .resolved none ↔
      (storeGet store "items" = none ∨
        ∃ r, storeGet store "items" = some r ∧ r.data.emptyPayload)) ∧
    (∀ r xs, storeGet store "items" = some r → r.data = .arr xs →
      ((loadAppData env s).2 = .resolved none ↔ xs = [])) ∧
    (∃ result, (loadAppData env s).2 = .resolved result) ∧
    (∀ bundle, (loadAppData env s).2 = .resolved (some bundle) →
      (OfflineCacheService.get env "settings" s).2 = .resolved bundle.settings ∧
      (OfflineCacheService.get env "headers" s).2 = .resolved bundle.headers ∧
      (OfflineCacheService.get env "items" s).2 = .resolved bundle.items ∧
      (OfflineCacheService.get env "columnConfig" s).2 = .resolved bundle.columnConfig ∧
      (OfflineCacheService.get env "layerConfig" s).2 = .resolved bundle.layerConfig ∧
      (OfflineCacheService.get env "layersData" s).2 = .resolved bundle.layersData ∧
      (OfflineCacheService.get env "tabsConfig" s).2 = .resolved bundle.tabsConfig ∧
      (OfflineCacheService.get env "user" s).2 = .resolved bundle.user) ∧
    (∀ key, storeGet store key = none →
      (OfflineCacheService.get env key s).2 = .resolved .null) := by
  have h0 : env.requestFails s.tick = false := by simpa using hreads 0 (by omega)
  have hload := loadAppData_ok env s store hdb hreads
  have hget : ∀ key, (OfflineCacheService.get env key s).2 = .resolved (readOf store key) :=
    fun key => by rw [get_ok env s store key hdb h0]
  have hempty := emptyPayload_iff (readOf store "items")
  refine ⟨?_, ?_, ?_, ?_, ?_⟩
  · rw [hload]
    by_cases hc : (!(readOf store "items").truthy || (readOf store "items").length.isZero) = true
    · rw [if_pos hc]
      have he := hempty.mp hc
      simp only [true_iff]
      cases hrec : storeGet store "items" with
      | none => exact Or.inl rfl
      | some r =>
        refine Or.inr ⟨r, rfl, ?_⟩
        simpa [readOf, hrec] using he
    · rw [if_neg hc]
      constructor
      · intro h; cases h
      · intro h
        exfalso
        apply hc
        apply hempty.mpr
        rcases h with h | ⟨r, hr, he⟩
        · simp [readOf, h, JSVal.emptyPayload]
        · simpa [readOf, hr] using he
  · intro r xs hr hdata
    rw [hload]
    have hro : readOf store "items" = .arr xs := by simp [readOf, hr, hdata]
    rw [hro]
    cases xs with
    | nil => simp [JSVal.truthy, JSVal.length, JSVal.isZero]
    | cons y ys =>
      have hne : ¬ ((ys.length : Int) + 1 = 0) := by omega
      simp [JSVal.truthy, JSVal.length, JSVal.isZero, hne]
  · rw [hload]
    by_cases hc : (!(readOf store "items").truthy || (readOf store "items").length.isZero) = true
    · exact ⟨none, by rw [if_pos hc]⟩
    · exact ⟨_, by rw [if_neg hc]⟩
  · intro bundle hb
    rw [hload] at hb
    by_cases hc : (!(readOf store "items").truthy || (readOf store "items").length.isZero) = true
    · rw [if_pos hc] at hb; cases hb
    · rw [if_neg hc] at hb
      cases hb
      exact ⟨hget _, hget _, hget _, hget _, hget _, hget _, hget _, hget _⟩
  · intro key hkey
    rw [hget key]
    simp [readOf, hkey]

open OfflineCacheService in
/-- C2, at a concrete input: a store that holds only a two-element `items`
record is loaded as a bundle. -/
theorem loadAppData_null_iff_items_absent_or_empty_witness :
    sampleService.db = some sampleStore ∧
    ¬ (loadAppData steadyPlatform sampleService).2 = .resolved none := by
  refine ⟨rfl, fun h => ?_⟩
  have hspec := (loadAppData_null_iff_items_absent_or_empty steadyPlatform sampleService
    sampleStore rfl (fun _ _ => rfl)).2.1
    { key := "items", data := .arr [.num 1, .num 2], timestamp := "t0" } [.num 1, .num 2]
    rfl rfl
  exact absurd (hspec.mp h) (by simp)

section Invariant

theorem bind_eq {α β : Type} (p : Async α) (f : α → Async β) : (p >>= f) = Async.andThen p f := rfl

theorem pure_eq {α : Type} (a : α) : (pure a : Async α) = Async.resolve a := rfl

theorem keeps_resolve {α : Type} (P : OfflineCacheService → Prop) (a : α) :
    Keeps P (Async.resolve a) := fun _ h => h

theorem keeps_andThen {α β : Type} (P : OfflineCacheService → Prop) (p : Async α)
    (f : α → Async β) (hp : Keeps P p) (hf : ∀ a, Keeps P (f a)) :
    Keeps P (Async.andThen p f) := by
  intro s hs
  have h1 := hp s hs
  unfold Async.andThen
  rcases hps : p s with ⟨s1, r⟩
  rw [hps] at h1
  cases r with
  | resolved a => exact hf a s1 h1
  | rejected => exact h1

theorem keeps_tryCatch {α : Type} (P : OfflineCacheService → Prop) (body handler : Async α)
    (hb : Keeps P body) (hh : Keeps P handler) : Keeps P (Async.tryCatch body handler) := by
  intro s hs
  have h1 := hb s hs
  unfold Async.tryCatch
  rcases hps : body s with ⟨s1, r⟩
  rw [hps] at h1
  cases r with
  | resolved a => exact h1
  | rejected => exact hh s1 h1

theorem keeps_all {α : Type} (P : OfflineCacheService → Prop) (ps : List (Async α))
    (h : ∀ p, p ∈ ps → Keeps P p) : Keeps P (Async.all ps) := by
  induction ps with
  | nil => exact keeps_resolve P []
  | cons p rest ih =>
    have hrest := ih (fun q hq => h q (List.mem_cons_of_mem _ hq))
    intro s hs
    have h1 := h p (List.mem_cons_self _ _) s hs
    unfold Async.all
    rcases hps : p s with ⟨s1, r⟩
    rw [hps] at h1
    have h2 := hrest s1 h1
    cases r with
    | resolved a =>
      dsimp only
      rcases hq : Async.all rest s1 with ⟨s2, r2⟩
      rw [hq] at h2
      cases r2 <;> exact h2
    | rejected => exact h2

theorem lastWritten_append (key : String) (journal : List StoreEvent) (e : StoreEvent) :
    lastWritten key (journal ++ [e]) =
      match e with
      | .put k v => if k = key then some v else lastWritten key journal
      | .cleared => none := by
  unfold lastWritten
  rw [List.foldl_append]
  cases e <;> rfl

theorem keeps_save (env : Platform) (key : String) (data : JSVal) :
    Keeps StoreAgrees (OfflineCacheService.save env key data) := by
  rintro ⟨db, o, l, c, t, j⟩ ⟨store, hdb, hag⟩
  simp only at hdb hag
  subst hdb
  cases hf : env.requestFails t with
  | true =>
    simp only [OfflineCacheService.save, hf, if_true]
    exact ⟨store, rfl, hag⟩
  | false =>
    simp only [OfflineCacheService.save, hf]
    refine ⟨_, rfl, fun k => ?_⟩
    simp only [Bool.false_eq_true, if_false]
    rw [storeGet_storePut, lastWritten_append]
    by_cases hk : key = k
    · simp [hk]
    · simp only [hk, if_false]
      exact hag k

theorem keeps_get (env : Platform) (key : String) :
    Keeps StoreAgrees (OfflineCacheService.get env key) := by
  rintro ⟨db, o, l, c, t, j⟩ ⟨store, hdb, hag⟩
  simp only at hdb hag
  subst hdb
  cases hf : env.requestFails t with
  | true =>
    simp only [OfflineCacheService.get, hf, if_true]
    exact ⟨store, rfl, hag⟩
  | false =>
    simp only [OfflineCacheService.get, hf, Bool.false_eq_true, if_false]
    cases storeGet store key <;> exact ⟨store, rfl, hag⟩

theorem keeps_stampLastUpdated (env : Platform) :
    Keeps StoreAgrees (OfflineCacheService.stampLastUpdated env) := by
  rintro s ⟨store, hdb, hag⟩
  exact ⟨store, hdb, hag⟩

theorem keeps_clearCache (env : Platform) :
    Keeps StoreAgrees (OfflineCacheService.clearCache env) := by
  rintro ⟨db, o, l, c, t, j⟩ ⟨store, hdb, hag⟩
  simp only at hdb hag
  subst hdb
  cases hf : env.requestFails t with
  | true =>
    simp only [OfflineCacheService.clearCache, hf, if_true]
    exact ⟨store, rfl, hag⟩
  | false =>
    simp only [OfflineCacheService.clearCache, hf, Bool.false_eq_true, if_false]
    refine ⟨[], rfl, fun k => ?_⟩
    rw [lastWritten_append]
    rfl

theorem keeps_saveAppData (env : Platform) (data : AppData) :
    Keeps StoreAgrees (OfflineCacheService.saveAppData env data) := by
  unfold OfflineCacheService.saveAppData
  simp only [bind_eq, pure_eq]
  refine keeps_tryCatch _ _ _ ?_ (keeps_resolve _ _)
  repeat (first
    | exact keeps_resolve _ _
    | exact keeps_save _ _ _
    | exact keeps_stampLastUpdated _
    | apply keeps_andThen
    | intro _)

theorem keeps_saveTabData (env : Platform) (tabIndex : Nat) (data : TabData) :
    Keeps StoreAgrees (OfflineCacheService.saveTabData env tabIndex data) := by
  unfold OfflineCacheService.saveTabData
  simp only [bind_eq, pure_eq]
  refine keeps_tryCatch _ _ _ ?_ (keeps_resolve _ _)
  repeat (first
    | exact keeps_resolve _ _
    | exact keeps_save _ _ _
    | apply keeps_andThen
    | intro _)

theorem keeps_loadAppData (env : Platform) :
    Keeps StoreAgrees (OfflineCacheService.loadAppData env) := by
  unfold OfflineCacheService.loadAppData
  simp only [bind_eq, pure_eq]
  refine keeps_tryCatch _ _ _ (keeps_andThen _ _ _ ?_ ?_) (keeps_resolve _ _)
  · apply keeps_all
    intro p hp
    simp only [List.mem_cons, List.mem_singleton, List.not_mem_nil, or_false] at hp
    rcases hp with h | h | h | h | h | h | h | h <;> rw [h] <;> exact keeps_get _ _
  · intro values
    split
    · split <;> exact keeps_resolve _ _
    · exact keeps_resolve _ _

theorem keeps_loadTabData (env : Platform) (tabIndex : Nat) :
    Keeps StoreAgrees (OfflineCacheService.loadTabData env tabIndex) := by
  unfold OfflineCacheService.loadTabData
  simp only [bind_eq, pure_eq]
  refine keeps_tryCatch _ _ _ (keeps_andThen _ _ _ ?_ ?_) (keeps_resolve _ _)
  · apply keeps_all
    intro p hp
    simp only [List.mem_cons, List.mem_singleton, List.not_mem_nil, or_false] at hp
    rcases hp with h | h | h | h <;> rw [h] <;> exact keeps_get _ _
  · intro values
    split
    · split <;> exact keeps_resolve _ _
    · exact keeps_resolve _ _

theorem keeps_hasCache (env : Platform) :
    Keeps StoreAgrees (OfflineCacheService.hasCache env) := by
  unfold OfflineCacheService.hasCache
  simp only [bind_eq, pure_eq]
  exact keeps_andThen _ _ _ (keeps_get _ _) (fun _ => keeps_resolve _ _)

theorem getLastUpdatedFormatted_frame (env : Platform) (s : OfflineCacheService) :
    (OfflineCacheService.getLastUpdatedFormatted env s).1.db = s.db ∧
    (OfflineCacheService.getLastUpdatedFormatted env s).1.journal = s.journal ∧
    (OfflineCacheService.getLastUpdatedFormatted env s).1.lastUpdated = s.lastUpdated := by
  unfold OfflineCacheService.getLastUpdatedFormatted
  split
  · exact ⟨rfl, rfl, rfl⟩
  · dsimp only
    split_ifs <;> exact ⟨rfl, rfl, rfl⟩

theorem handleOnlineStatus_frame (online : Bool) (s : OfflineCacheService) :
    (OfflineCacheService._handleOnlineStatus online s).1 = { s with isOnline := online } := by
  unfold OfflineCacheService._handleOnlineStatus
  dsimp only
  split
  · split_ifs <;> rfl
  · rfl

theorem storeAgrees_call (env : Platform) (c : Call) (s : OfflineCacheService)
    (h : StoreAgrees s) : StoreAgrees (OfflineCacheService.call env c s) := by
  cases c with
  | save key data => exact keeps_save env key data s h
  | get key => exact keeps_get env key s h
  | saveAppData data => exact keeps_saveAppData env data s h
  | loadAppData => exact keeps_loadAppData env s h
  | saveTabData tabIndex data => exact keeps_saveTabData env tabIndex data s h
  | loadTabData tabIndex => exact keeps_loadTabData env tabIndex s h
  | hasCache => exact keeps_hasCache env s h
  | clearCache => exact keeps_clearCache env s h
  | getLastUpdatedFormatted =>
    obtain ⟨store, hdb, hag⟩ := h
    have hfr := getLastUpdatedFormatted_frame env s
    show StoreAgrees (OfflineCacheService.getLastUpdatedFormatted env s).1
    exact ⟨store, hfr.1.trans hdb, fun k => by rw [hfr.2.1]; exact hag k⟩
  | handleOnlineStatus online =>
    obtain ⟨store, hdb, hag⟩ := h
    show StoreAgrees (OfflineCacheService._handleOnlineStatus online s).1
    rw [handleOnlineStatus_frame]
    exact ⟨store, hdb, hag⟩

theorem storeAgrees_run (env : Platform) (calls : List Call) (s : OfflineCacheService)
    (h : StoreAgrees s) : StoreAgrees (OfflineCacheService.run env calls s) := by
  induction calls generalizing s with
  | nil => exact h
  | cons c rest ih => exact ih _ (storeAgrees_call env c s h)

theorem storeAgrees_opened (online : Bool) : StoreAgrees (OfflineCacheService.opened online) :=
  ⟨[], rfl, fun _ => rfl⟩

theorem hasCache_ok (env : Platform) (s : OfflineCacheService) (store : ObjectStore)
    (hdb : s.db = some store) (h : env.requestFails s.tick = false) :
    (OfflineCacheService.hasCache env s).2 =
      .resolved (if (readOf store "items").truthy then
        .bool ((readOf store "items").length.gtZero env.coerceGtZero)
        else readOf store "items") := by
  unfold OfflineCacheService.hasCache
  simp only [bind_eq, pure_eq, Async.andThen, get_ok env s store "items" hdb h]
  rfl

theorem readOf_eq_lastWritten (s : OfflineCacheService) (store : ObjectStore) (key : String)
    (h : (storeGet store key).map (fun r => r.data) = lastWritten key s.journal) :
    readOf store key = (lastWritten key s.journal).getD .null := by
  rw [← h]
  unfold readOf
  cases storeGet store key <;> rfl

end Invariant


/-! ## Presence of cached data -/

open OfflineCacheService in
/-- C3, as the code has it. After any sequence of calls on a freshly opened
store, a `hasCache()` whose read succeeds returns the boolean `true` exactly
when the payload last written to `items` since the last clear is truthy with
a positive length, which for an array means non-empty; for an array payload
it returns the boolean `!xs.isEmpty`; when `items` was never written or the
store was cleared since, it returns `null`; and whatever it returns other
than `true` is falsy. -/
theorem hasCache_after_calls (env : Platform) (online : Bool) (calls : List Call)
    (s : OfflineCacheService) (hs : s = run env calls (opened online))
    (hread : env.requestFails s.tick = false) :
    ((hasCache env s).2 = .resolved (.bool true) ↔
      ∃ v, lastWritten "items" s.journal = some v ∧ v.truthy = true ∧
        v.length.gtZero env.coerceGtZero = true) ∧
    (∀ xs, lastWritten "items" s.journal = some (.arr xs) →
      (hasCache env s).2 = .resolved (.bool (!xs.isEmpty))) ∧
    (lastWritten "items" s.journal = none → (hasCache env s).2 = .resolved .null) ∧
    (∃ v, (hasCache env s).2 = .resolved v ∧ (v.truthy = true → v = .bool true)) := by
  have hag : StoreAgrees s := hs ▸ storeAgrees_run env calls _ (storeAgrees_opened online)
  obtain ⟨store, hdb, hkeys⟩ := hag
  have hro := readOf_eq_lastWritten s store "items" (hkeys "items")
  have hres := hasCache_ok env s store hdb hread
  rw [hro] at hres
  rw [hres]
  refine ⟨?_, ?_, ?_, ?_⟩
  · cases hl : lastWritten "items" s.journal with
    | none => simp [JSVal.truthy]
    | some v =>
      cases ht : v.truthy with
      | false =>
        simp only [Option.getD_some, ht, Bool.false_eq_true, if_false]
        constructor
        · intro h
          injection h with h
          rw [h] at ht
          simp [JSVal.truthy] at ht
        · rintro ⟨w, hw, hwt, _⟩
          injection hw with hw
          rw [← hw, ht] at hwt
          cases hwt
      | true => simp [ht]
  · intro xs hl
    rw [hl]
    cases xs with
    | nil => simp [JSVal.truthy, JSVal.length, JSVal.gtZero]
    | cons y ys =>
      have hpos : (0 : Int) < (ys.length : Int) + 1 := by omega
      simp [JSVal.truthy, JSVal.length, JSVal.gtZero, hpos]
  · intro hl
    rw [hl]
    simp [JSVal.truthy]
  · refine ⟨_, rfl, ?_⟩
    cases ht : ((lastWritten "items" s.journal).getD JSVal.null).truthy with
    | false => simp [ht]
    | true =>
      simp only [if_true]
      intro h
      simpa [JSVal.truthy] using h

open OfflineCacheService in
/-- C3, at a concrete input: after the sample bundle is saved and the cache
cleared, `hasCache()` returns `null`. -/
theorem hasCache_after_calls_witness :
    (hasCache steadyPlatform
      (run steadyPlatform [.saveAppData sampleData, .clearCache] (opened true))).2
      = .resolved .null :=
  (hasCache_after_calls steadyPlatform true [.saveAppData sampleData, .clearCache]
    _ rfl rfl).2.2.1 rfl

open OfflineCacheService in
/-- C3 as stated fails: on a freshly opened store, where `items` was never
written, `hasCache()` returns `null`, which is not the boolean `false`. -/
theorem hasCache_never_written_returns_null :
    (hasCache steadyPlatform (opened true)).2 = .resolved .null ∧
    (hasCache steadyPlatform (opened true)).2 ≠ .resolved (.bool false) := by
  constructor
  · rfl
  · intro h
    have h2 : (hasCache steadyPlatform (opened true)).2 = .resolved .null := rfl
    rw [h2] at h
    injection h with h
    cases h


/-! ## Failed and unconfigured snapshots -/

theorem andThen_save_opened {β : Type} (env : Platform) (key : String) (data : JSVal)
    (f : Bool → Async β) (db : ObjectStore) (o : Bool) (l : Option Int) (c : Option Nat)
    (t : Nat) (j : List StoreEvent) :
    Async.andThen (OfflineCacheService.save env key data) f ⟨some db, o, l, c, t, j⟩ =
      if env.requestFails t = true then (⟨some db, o, l, c, t + 1, j⟩, .rejected)
      else f true ⟨some (storePut db ⟨key, data, env.toISOString (env.clock t)⟩), o, l, c,
        t + 1, j ++ [.put key data]⟩ := by
  unfold Async.andThen OfflineCacheService.save
  cases env.requestFails t <;> rfl

theorem andThen_stamp {β : Type} (env : Platform)
    (f : Int → Async β) (db : Option ObjectStore) (o : Bool) (l : Option Int) (c : Option Nat)
    (t : Nat) (j : List StoreEvent) :
    Async.andThen (OfflineCacheService.stampLastUpdated env) f ⟨db, o, l, c, t, j⟩ =
      f (env.clock t) ⟨db, o, some (env.clock t), c, t + 1, j⟩ := rfl

open OfflineCacheService in
/-- On an opened store, when the put request of one of the eight data
writes of `saveAppData` fails, the call returns `false`, leaves `lastUpdated` and the
stored `_metadata` record as they were and puts no `_metadata` record; and
whenever a call puts a `_metadata` record, the records it put are the eight
data records, in order, followed by that one. -/
theorem saveAppData_failed_write_leaves_freshness (env : Platform) (s : OfflineCacheService)
    (store : ObjectStore) (data : AppData) (hdb : s.db = some store) :
    ((∃ i, i < 8 ∧ env.requestFails (s.tick + i) = true) →
      (saveAppData env data s).2 = .resolved false ∧
      (saveAppData env data s).1.lastUpdated = s.lastUpdated ∧
      (∃ store1, (saveAppData env data s).1.db = some store1 ∧
        storeGet store1 "_metadata" = storeGet store "_metadata") ∧
      (∀ v, StoreEvent.put "_metadata" v ∉
        (saveAppData env data s).1.journal.drop s.journal.length)) ∧
    (∀ v, StoreEvent.put "_metadata" v ∈
        (saveAppData env data s).1.journal.drop s.journal.length →
      (saveAppData env data s).1.journal.drop s.journal.length =
        [.put "settings" data.settings, .put "headers" data.headers, .put "items" data.items,
         .put "columnConfig" data.columnConfig, .put "layerConfig" data.layerConfig,
         .put "layersData" data.layersData, .put "tabsConfig" data.tabsConfig,
         .put "user" data.user, .put "_metadata" v]) := by
  obtain ⟨db, o, l, c, t, j⟩ := s
  simp only at hdb
  subst hdb
  simp only [saveAppData, bind_eq, pure_eq, andThen_save_opened, andThen_stamp, Async.tryCatch,
    Nat.add_assoc, Nat.reduceAdd]
  by_cases h0 : env.requestFails t = true
  · simp [h0, Async.resolve, storeGet_storePut]
  by_cases h1 : env.requestFails (t + 1) = true
  · simp [h0, h1, Async.resolve, storeGet_storePut]
  by_cases h2 : env.requestFails (t + 2) = true
  · simp [h0, h1, h2, Async.resolve, storeGet_storePut]
  by_cases h3 : env.requestFails (t + 3) = true
  · simp [h0, h1, h2, h3, Async.resolve, storeGet_storePut]
  by_cases h4 : env.requestFails (t + 4) = true
  · simp [h0, h1, h2, h3, h4, Async.resolve, storeGet_storePut]
  by_cases h5 : env.requestFails (t + 5) = true
  · simp [h0, h1, h2, h3, h4, h5, Async.resolve, storeGet_storePut]
  by_cases h6 : env.requestFails (t + 6) = true
  · simp [h0, h1, h2, h3, h4, h5, h6, Async.resolve, storeGet_storePut]
  by_cases h7 : env.requestFails (t + 7) = true
  · simp [h0, h1, h2, h3, h4, h5, h6, h7, Async.resolve, storeGet_storePut]
  have hno : ¬ ∃ i, i < 8 ∧ env.requestFails (t + i) = true := by
    rintro ⟨i, hi, hf⟩
    interval_cases i <;> simp_all
  by_cases h9 : env.requestFails (t + 9) = true
  · simp [h0, h1, h2, h3, h4, h5, h6, h7, h9, hno, Async.resolve, storeGet_storePut]
  · simp [h0, h1, h2, h3, h4, h5, h6, h7, h9, hno, Async.resolve, storeGet_storePut]


open OfflineCacheService in
/-- At a concrete input: the third write (`items`) fails on a freshly
opened store. -/
theorem saveAppData_failed_write_leaves_freshness_witness :
    (saveAppData faultyPlatform sampleData (opened true)).2 = .resolved false ∧
    (saveAppData faultyPlatform sampleData (opened true)).1.lastUpdated = none :=
  have h := (saveAppData_failed_write_leaves_freshness faultyPlatform (opened true) []
    sampleData rfl).1 ⟨2, by decide, rfl⟩
  ⟨h.1, h.2.1⟩

/-! ## The freshness label -/

section Label

theorem append_ne_never (a suffix : String) (hlen : suffix.length = 5)
    (hne : suffix ≠ "Never") : a ++ suffix ≠ "Never" := by
  intro h
  have hl := congrArg String.length h
  rw [String.length_append, hlen] at hl
  have h5 : "Never".length = 5 := by decide
  rw [h5] at hl
  have ha : a = "" := string_length_eq_zero a (by omega)
  rw [ha, String.empty_append] at h
  exact hne h

theorem getLastUpdatedFormatted_some (env : Platform) (s : OfflineCacheService) (t : Int)
    (h : s.lastUpdated = some t) :
    (OfflineCacheService.getLastUpdatedFormatted env s).2 =
      if (env.clock s.tick - t) / 60000 < 1 then .text "Just now"
      else if (env.clock s.tick - t) / 60000 < 60 then
        .text (toString (Int.fdiv (env.clock s.tick - t) 60000) ++ "m ago")
      else if (env.clock s.tick - t) / 3600000 < 24 then
        .text (toString (Int.fdiv (env.clock s.tick - t) 3600000) ++ "h ago")
      else if (env.clock s.tick - t) / 86400000 < 7 then
        .text (toString (Int.fdiv (env.clock s.tick - t) 86400000) ++ "d ago")
      else .localeDate t := by
  unfold OfflineCacheService.getLastUpdatedFormatted
  rw [h]
  dsimp only
  rw [Int.fdiv_eq_ediv _ (by decide : (0 : Int) ≤ 60000),
    Int.fdiv_eq_ediv _ (by decide : (0 : Int) ≤ 3600000),
    Int.fdiv_eq_ediv _ (by decide : (0 : Int) ≤ 86400000)]
  split_ifs <;> rfl

theorem getLastUpdatedFormatted_never_iff (env : Platform) (s : OfflineCacheService) :
    (OfflineCacheService.getLastUpdatedFormatted env s).2 = .text "Never" ↔
      s.lastUpdated = none := by
  constructor
  · intro h
    cases hl : s.lastUpdated with
    | none => rfl
    | some t =>
      exfalso
      rw [getLastUpdatedFormatted_some env s t hl] at h
      split_ifs at h
      · injection h with h; exact absurd h (by decide)
      · injection h with h; exact append_ne_never _ _ (by decide) (by decide) h
      · injection h with h; exact append_ne_never _ _ (by decide) (by decide) h
      · injection h with h; exact append_ne_never _ _ (by decide) (by decide) h
  · intro h
    unfold OfflineCacheService.getLastUpdatedFormatted
    rw [h]

end Label

open OfflineCacheService in
/-- C7. `getLastUpdatedFormatted()` returns "Never" exactly when no
timestamp is recorded, which is the case of a new service and after
`clearCache()`: on an opened store whose clear request succeeds,
`clearCache()` resolves `true`, empties the store and resets the timestamp,
and the label is "Never" again. With a timestamp `t` and `d` the milliseconds from
`t` to now, it returns "Just now" for `d < 60000`, the floor of `d / 60000`
followed by "m ago" below one hour, the floor of `d / 3600000` followed by
"h ago" below one day, the floor of `d / 86400000` followed by "d ago" below
seven days, and the locale date otherwise; the numbers shown lie in 1..59,
1..23 and 1..6. -/
theorem getLastUpdatedFormatted_buckets (env : Platform) (s : OfflineCacheService) :
    ((getLastUpdatedFormatted env s).2 = .text "Never" ↔ s.lastUpdated = none) ∧
    (∀ online, (getLastUpdatedFormatted env (new online)).2 = .text "Never") ∧
    ((clearCache env s).2 = .resolved true →
      (getLastUpdatedFormatted env (clearCache env s).1).2 = .text "Never") ∧
    (∀ t d, s.lastUpdated = some t → d = env.clock s.tick - t →
      (d < 60000 → (getLastUpdatedFormatted env s).2 = .text "Just now") ∧
      (60000 ≤ d ∧ d < 3600000 →
        (getLastUpdatedFormatted env s).2 = .text (toString (Int.fdiv d 60000) ++ "m ago") ∧
        1 ≤ Int.fdiv d 60000 ∧ Int.fdiv d 60000 ≤ 59) ∧
      (3600000 ≤ d ∧ d < 86400000 →
        (getLastUpdatedFormatted env s).2 = .text (toString (Int.fdiv d 3600000) ++ "h ago") ∧
        1 ≤ Int.fdiv d 3600000 ∧ Int.fdiv d 3600000 ≤ 23) ∧
      (86400000 ≤ d ∧ d < 604800000 →
        (getLastUpdatedFormatted env s).2 = .text (toString (Int.fdiv d 86400000) ++ "d ago") ∧
        1 ≤ Int.fdiv d 86400000 ∧ Int.fdiv d 86400000 ≤ 6) ∧
      (604800000 ≤ d → (getLastUpdatedFormatted env s).2 = .localeDate t)) ∧
    (∀ store, s.db = some store → env.requestFails s.tick = false →
      (clearCache env s).2 = .resolved true ∧
      (clearCache env s).1.lastUpdated = none ∧
      (clearCache env s).1.db = some [] ∧
      (getLastUpdatedFormatted env (clearCache env s).1).2 = .text "Never") := by
  refine ⟨getLastUpdatedFormatted_never_iff env s, fun _ => rfl, ?_, ?_, ?_⟩
  · intro hc
    apply (getLastUpdatedFormatted_never_iff env _).mpr
    unfold clearCache at hc ⊢
    cases hdb : s.db with
    | none => rw [hdb] at hc; cases hc
    | some store =>
      rw [hdb] at hc
      dsimp only at hc ⊢
      cases hf : env.requestFails s.tick with
      | true => rw [hf] at hc; cases hc
      | false => rfl
  · intro t d ht hd
    have hres := getLastUpdatedFormatted_some env s t ht
    rw [← hd] at hres
    have e1 := Int.fdiv_eq_ediv d (by decide : (0 : Int) ≤ 60000)
    have e2 := Int.fdiv_eq_ediv d (by decide : (0 : Int) ≤ 3600000)
    have e3 := Int.fdiv_eq_ediv d (by decide : (0 : Int) ≤ 86400000)
    rw [hres, e1, e2, e3]
    refine ⟨fun h => ?_, fun h => ?_, fun h => ?_, fun h => ?_, fun h => ?_⟩
    · rw [if_pos (by omega)]
    · rw [if_neg (by omega), if_pos (by omega)]
      exact ⟨by rw [← e1], by omega, by omega⟩
    · rw [if_neg (by omega), if_neg (by omega), if_pos (by omega)]
      exact ⟨by rw [← e2], by omega, by omega⟩
    · rw [if_neg (by omega), if_neg (by omega), if_neg (by omega), if_pos (by omega)]
      exact ⟨by rw [← e3], by omega, by omega⟩
    · rw [if_neg (by omega), if_neg (by omega), if_neg (by omega), if_neg (by omega)]
  · intro store hdb hok
    obtain ⟨db, o, l, c, t, j⟩ := s
    simp only at hdb hok
    subst hdb
    have hrun : clearCache env ⟨some store, o, l, c, t, j⟩ =
        (⟨some [], o, none, c, t + 1, j ++ [.cleared]⟩, .resolved true) := by
      simp only [clearCache, hok, Bool.false_eq_true, if_false]
    rw [hrun]
    exact ⟨rfl, rfl, rfl, rfl⟩

open OfflineCacheService in
/-- C7, at a concrete input: after `saveAppData(sampleData)` a timestamp is
recorded and the label is not "Never"; `clearCache()` then resolves `true`
and the label is "Never". -/
theorem getLastUpdatedFormatted_buckets_witness :
    (getLastUpdatedFormatted steadyPlatform savedService).2 ≠ .text "Never" ∧
    (clearCache steadyPlatform savedService).2 = .resolved true ∧
    (getLastUpdatedFormatted steadyPlatform (clearCache steadyPlatform savedService).1).2
      = .text "Never" := by
  have h := getLastUpdatedFormatted_buckets steadyPlatform savedService
  have hclear := h.2.2.2.2 _ rfl rfl
  refine ⟨fun hn => ?_, hclear.1, hclear.2.2.2⟩
  have hnone : savedService.lastUpdated = none := h.1.mp hn
  have hsome : savedService.lastUpdated = some 480000 := rfl
  rw [hsome] at hnone
  cases hnone


open OfflineCacheService in
/-- C4 does not hold on the code. On a service whose store was never opened
(`db` is `null`) every sub-write of `saveAppData` fails: `save` resolves
`false` and changes nothing. Yet `saveAppData` resolves `true` and replaces
the empty `lastUpdated` by the current time; no record is written. -/
theorem saveAppData_unopened_subwrites_fail (env : Platform) (data : AppData)
    (online : Bool) :
    (∀ key v, save env key v (new online) = (new online, .resolved false)) ∧
    (saveAppData env data (new online)).2 = .resolved true ∧
    (new online).lastUpdated = none ∧
    (saveAppData env data (new online)).1.lastUpdated = some (env.clock 0) ∧
    (saveAppData env data (new online)).1.db = none ∧
    (saveAppData env data (new online)).1.journal = [] :=
  ⟨fun _ _ => rfl, rfl, rfl, rfl, rfl, rfl⟩

open OfflineCacheService in
/-- C5 does not hold on the code. On a service whose store was never opened
(`db` is `null`), `saveAppData` writes no record but returns `true` and sets
`lastUpdated` to the current time, so that `getLastUpdatedFormatted()` no
longer returns "Never". -/
theorem saveAppData_unopened_returns_true (env : Platform) (data : AppData)
    (s : OfflineCacheService) (hdb : s.db = none) :
    saveAppData env data s =
      ({ s with lastUpdated := some (env.clock s.tick), tick := s.tick + 1 },
        .resolved true) ∧
    (getLastUpdatedFormatted env (saveAppData env data s).1).2 ≠ .text "Never" := by
  have hrun : saveAppData env data s =
      ({ s with lastUpdated := some (env.clock s.tick), tick := s.tick + 1 },
        .resolved true) := by
    obtain ⟨db, o, l, c, t, j⟩ := s
    simp only at hdb
    subst hdb
    rfl
  refine ⟨hrun, fun h => ?_⟩
  have hnone := (getLastUpdatedFormatted_never_iff env _).mp h
  rw [hrun] at hnone
  cases hnone

open OfflineCacheService in
/-- C5, at a concrete input: a new service, never opened, is given the
sample bundle. -/
theorem saveAppData_unopened_returns_true_witness :
    (saveAppData steadyPlatform sampleData (new true)).2 = .resolved true ∧
    (saveAppData steadyPlatform sampleData (new true)).1.lastUpdated = some 0 ∧
    (saveAppData steadyPlatform sampleData (new true)).1.db = none := by
  have h := (saveAppData_unopened_returns_true steadyPlatform sampleData (new true) rfl).1
  rw [h]
  exact ⟨rfl, rfl, rfl⟩

/-! ## The network status monitor -/

section Monitor

theorem deliver_without_callback (signals : List Bool) (s : OfflineCacheService)
    (h : s.onStatusChange = none) : (OfflineCacheService.deliver signals s).2 = [] := by
  induction signals generalizing s with
  | nil => rfl
  | cons b rest ih =>
    unfold OfflineCacheService.deliver
    dsimp only
    have hstep : (OfflineCacheService._handleOnlineStatus b s).2 = [] := by
      unfold OfflineCacheService._handleOnlineStatus
      dsimp only
      rw [h]
    rw [hstep, ih _ (by rw [handleOnlineStatus_frame]; exact h)]
    rfl

theorem handleOnlineStatus_calls (online : Bool) (s : OfflineCacheService) :
    (OfflineCacheService._handleOnlineStatus online s).2 =
      match s.onStatusChange with
      | some callback => if online = s.isOnline then [] else [(callback, online)]
      | none => [] := by
  unfold OfflineCacheService._handleOnlineStatus
  dsimp only
  cases s.onStatusChange with
  | none => rfl
  | some cb =>
    dsimp only
    cases online <;> cases s.isOnline <;> rfl

end Monitor

open OfflineCacheService in
/-- C6. For every initial state and every sequence of raw signals delivered
to `_handleOnlineStatus`, the arguments of the successive invocations of the
callback alternate, the first one differing from the initial `isOnline`; all
invocations go to the registered callback; and one signal invokes the
callback exactly when a callback is registered and the signal differs from
the state held before, with the signal as argument. -/
theorem onStatusChange_never_repeats (signals : List Bool) (s : OfflineCacheService) :
    List.Chain (fun a b => a ≠ b) s.isOnline ((deliver signals s).2.map Prod.snd) ∧
    (∀ p, p ∈ (deliver signals s).2 → s.onStatusChange = some p.1) ∧
    (∀ online,
      (_handleOnlineStatus online s).1.isOnline = online ∧
      (_handleOnlineStatus online s).1.onStatusChange = s.onStatusChange ∧
      (_handleOnlineStatus online s).2 =
        match s.onStatusChange with
        | some callback => if online = s.isOnline then [] else [(callback, online)]
        | none => []) := by
  refine ⟨?_, ?_, fun online => ⟨?_, ?_, handleOnlineStatus_calls online s⟩⟩
  · induction signals generalizing s with
    | nil => exact List.Chain.nil
    | cons b rest ih =>
      obtain ⟨db, o, l, c, t, j⟩ := s
      have hih := ih ⟨db, b, l, c, t, j⟩
      unfold deliver
      dsimp only
      rw [handleOnlineStatus_calls, handleOnlineStatus_frame]
      cases c with
      | none =>
        rw [deliver_without_callback rest _ rfl]
        exact List.Chain.nil
      | some cb =>
        dsimp only at hih ⊢
        by_cases hb : b = o
        · rw [if_pos hb, List.nil_append]
          rw [← hb]
          exact hih
        · rw [if_neg hb]
          exact List.Chain.cons (fun h => hb h.symm) hih
  · induction signals generalizing s with
    | nil => intro p hp; cases hp
    | cons b rest ih =>
      intro p hp
      unfold deliver at hp
      dsimp only at hp
      rw [List.mem_append] at hp
      rcases hp with hp | hp
      · rw [handleOnlineStatus_calls] at hp
        cases hcb : s.onStatusChange with
        | none => rw [hcb] at hp; cases hp
        | some cb =>
          rw [hcb] at hp
          dsimp only at hp
          split_ifs at hp
          · cases hp
          · rw [List.mem_singleton] at hp
            rw [hp]
      · have h := ih _ p hp
        rw [handleOnlineStatus_frame] at h
        exact h
  · rw [handleOnlineStatus_frame]
  · rw [handleOnlineStatus_frame]


/-! ## The fetch listener of the service worker -/

namespace ServiceWorker

section CacheLemmas

theorem startsWith_iff (s t : String) : startsWith s t = true ↔ t.data <+: s.data := by
  unfold startsWith
  exact List.isPrefixOf_iff_prefix

theorem includes_iff (s t : String) : includes s t = true ↔ t.data <:+: s.data := by
  unfold includes
  rw [List.any_eq_true, List.infix_iff_prefix_suffix]
  constructor
  · rintro ⟨rest, hrest, hp⟩
    exact ⟨rest, List.isPrefixOf_iff_prefix.mp hp, (List.mem_tails _ _).mp hrest⟩
  · rintro ⟨rest, hp, hs⟩
    exact ⟨rest, (List.mem_tails _ _).mpr hs, List.isPrefixOf_iff_prefix.mpr hp⟩

theorem searchParamsHas_iff (params : List (String × String)) (name : String) :
    searchParamsHas params name = true ↔ ∃ p, p ∈ params ∧ p.1 = name := by
  unfold searchParamsHas
  simp [List.any_eq_true]

theorem requestMatches_self (request : Request) : requestMatches request request = true := by
  simp [requestMatches]

theorem putIn_of_refused (caches : CacheStorage) (name : String) (request : Request)
    (response : Response) (h : cachePutAccepts request response = false) :
    putIn caches name request response = caches := by
  unfold putIn
  rw [h]
  rfl

theorem lookup_putIn (caches : CacheStorage) (name : String) (request : Request)
    (response : Response) (hacc : cachePutAccepts request response = true) :
    List.lookup name (putIn caches name request response) =
      (List.lookup name caches).map (fun c => cachePut c request response) := by
  unfold putIn
  rw [if_pos hacc]
  induction caches with
  | nil => rfl
  | cons c rest ih =>
    obtain ⟨n, cache⟩ := c
    by_cases h : n = name
    · subst h
      simp only [List.map_cons, beq_self_eq_true, if_true, List.lookup_cons_self,
        Option.map_some']
    · have h2 : (name == n) = false := by simpa using fun h3 => h h3.symm
      have h1 : (n == name) = false := by simpa using h
      simp only [List.map_cons, h1, Bool.false_eq_true, if_false]
      rw [List.lookup_cons, List.lookup_cons, h2]
      exact ih

theorem partition_cachesOpen (caches : CacheStorage) (name : String) :
    partition (cachesOpen caches name) name = partition caches name := by
  unfold partition cachesOpen
  cases h : List.lookup name caches with
  | some c => simp [h]
  | none =>
    simp only [Option.getD_none]
    rw [List.lookup_append, h]
    simp [List.lookup]

theorem lookup_cachesOpen_isSome (caches : CacheStorage) (name : String) :
    ∃ c, List.lookup name (cachesOpen caches name) = some c := by
  unfold cachesOpen
  cases h : List.lookup name caches with
  | some c => exact ⟨c, by simp [h]⟩
  | none =>
    refine ⟨[], ?_⟩
    simp only
    rw [List.lookup_append, h]
    simp [List.lookup]

theorem partition_putIn_cachesOpen (caches : CacheStorage) (name : String)
    (request : Request) (response : Response)
    (hacc : cachePutAccepts request response = true) :
    partition (putIn (cachesOpen caches name) name request response) name =
      cachePut (partition caches name) request response := by
  obtain ⟨c, hc⟩ := lookup_cachesOpen_isSome caches name
  have hp := partition_cachesOpen caches name
  unfold partition at hp ⊢
  rw [lookup_putIn _ _ _ _ hacc, hc]
  rw [hc] at hp
  simp only [Option.map_some', Option.getD_some] at hp ⊢
  rw [hp]

theorem cacheMatch_cachePut (cache : Cache) (request : Request) (response : Response) :
    cacheMatch (cachePut cache request response) request = some response := by
  unfold cacheMatch cachePut
  by_cases hany : cache.any (fun e => requestMatches request e.1) = true
  · rw [if_pos hany]
    induction cache with
    | nil => simp at hany
    | cons e rest ih =>
      by_cases he : requestMatches request e.1 = true
      · simp [List.find?, he, requestMatches_self]
      · have he2 : requestMatches request e.1 = false := by simpa using he
        have hrest : rest.any (fun e => requestMatches request e.1) = true := by
          simpa [List.any_cons, he2] using hany
        simp only [List.map_cons, he2, Bool.false_eq_true, if_false, List.find?]
        exact ih hrest
  · rw [if_neg hany]
    have hnone : cache.find? (fun e => requestMatches request e.1) = none := by
      rw [List.find?_eq_none]
      intro x hx hm
      exact hany (List.any_eq_true.mpr ⟨x, hx, hm⟩)
    rw [List.find?_append, hnone]
    simp [List.find?, requestMatches_self]

theorem cachePut_of_no_match (cache : Cache) (request : Request) (response : Response)
    (h : cacheMatch cache request = none) :
    cachePut cache request response = cache ++ [(request, response)] := by
  unfold cachePut
  have hany : ¬ cache.any (fun e => requestMatches request e.1) = true := by
    intro hany
    obtain ⟨x, hx, hm⟩ := List.any_eq_true.mp hany
    unfold cacheMatch at h
    rw [Option.map_eq_none', List.find?_eq_none] at h
    exact h x hx hm
  rw [if_neg hany]

theorem length_cachePut_of_match (cache : Cache) (request : Request) (response cached : Response)
    (h : cacheMatch cache request = some cached) :
    (cachePut cache request response).length = cache.length := by
  unfold cachePut
  have hany : cache.any (fun e => requestMatches request e.1) = true := by
    unfold cacheMatch at h
    cases hf : cache.find? (fun e => requestMatches request e.1) with
    | none => rw [hf] at h; cases h
    | some e =>
      have hm : requestMatches request e.1 = true := by
        have h3 := List.find?_some hf
        simpa using h3
      exact List.any_eq_true.mpr ⟨e, List.mem_of_find?_eq_some hf, hm⟩
  rw [if_pos hany, List.length_map]

end CacheLemmas

/-- C8, as the code has it. The listener decides in this order: a request
whose method is not GET, or whose protocol does not start with "http", is
not intercepted; otherwise a request whose hostname contains
"script.google.com" or "script.googleusercontent.com" is served stale
while revalidate when it has an `img` parameter and is not intercepted when
it has none; every other request is served network first. The two exact
hostnames are data hosts, "http:" and "https:" start with "http", and
`onFetch` calls `respondWith` exactly when the request is intercepted. -/
theorem strategy_priority (request : Request) :
    (request.method ≠ "GET" → strategy request = .notIntercepted) ∧
    (¬ "http".data <+: request.url.protocol.data → strategy request = .notIntercepted) ∧
    (request.method = "GET" → "http".data <+: request.url.protocol.data →
      ("script.google.com".data <:+: request.url.hostname.data ∨
        "script.googleusercontent.com".data <:+: request.url.hostname.data) →
      ((∃ p, p ∈ request.url.searchParams ∧ p.1 = "img") →
        strategy request = .staleWhileRevalidate) ∧
      ((¬ ∃ p, p ∈ request.url.searchParams ∧ p.1 = "img") →
        strategy request = .notIntercepted)) ∧
    (request.method = "GET" → "http".data <+: request.url.protocol.data →
      ¬ ("script.google.com".data <:+: request.url.hostname.data ∨
        "script.googleusercontent.com".data <:+: request.url.hostname.data) →
      strategy request = .networkFirst) ∧
    ((request.url.hostname = "script.google.com" ∨
        request.url.hostname = "script.googleusercontent.com") →
      ("script.google.com".data <:+: request.url.hostname.data ∨
        "script.googleusercontent.com".data <:+: request.url.hostname.data)) ∧
    ((request.url.protocol = "http:" ∨ request.url.protocol = "https:") →
      "http".data <+: request.url.protocol.data) ∧
    (∀ network caches,
      (onFetch network request caches = none ↔ strategy request = .notIntercepted) ∧
      (strategy request = .staleWhileRevalidate →
        onFetch network request caches = some (staleWhileRevalidate network request caches)) ∧
      (strategy request = .networkFirst →
        onFetch network request caches = some (networkFirst network request caches))) := by
  have hp := startsWith_iff request.url.protocol "http"
  have h1 := includes_iff request.url.hostname "script.google.com"
  have h2 := includes_iff request.url.hostname "script.googleusercontent.com"
  have h3 := searchParamsHas_iff request.url.searchParams "img"
  refine ⟨?_, ?_, ?_, ?_, ?_, ?_, ?_⟩
  · intro hm
    unfold strategy
    rw [if_pos (by simpa using hm)]
  · intro hpre
    unfold strategy
    have hsw : startsWith request.url.protocol "http" = false := by
      cases hb : startsWith request.url.protocol "http" with
      | false => rfl
      | true => exact absurd (hp.mp hb) hpre
    by_cases ha : (request.method != "GET") = true
    · rw [if_pos ha]
    · rw [if_neg ha, if_pos (by simp [hsw])]
  · intro hm hpre hhost
    have hsw := hp.mpr hpre
    have hinc : (includes request.url.hostname "script.google.com" ||
        includes request.url.hostname "script.googleusercontent.com") = true := by
      rcases hhost with h | h
      · simp [h1.mpr h]
      · simp [h2.mpr h]
    unfold strategy
    rw [if_neg (by simp [hm]), if_neg (by simp [hsw]), if_pos hinc]
    constructor
    · intro himg
      rw [if_pos (h3.mpr himg)]
    · intro himg
      rw [if_neg (fun h => himg (h3.mp h))]
  · intro hm hpre hhost
    have hsw := hp.mpr hpre
    have hinc : ¬ (includes request.url.hostname "script.google.com" ||
        includes request.url.hostname "script.googleusercontent.com") = true := by
      intro h
      rw [Bool.or_eq_true] at h
      rcases h with h | h
      · exact hhost (Or.inl (h1.mp h))
      · exact hhost (Or.inr (h2.mp h))
    unfold strategy
    rw [if_neg (by simp [hm]), if_neg (by simp [hsw]), if_neg hinc]
  · rintro (h | h)
    · left; rw [h]
    · right; rw [h]
  · rintro (h | h)
    · rw [h]; decide
    · rw [h]; decide
  · intro network caches
    unfold onFetch
    cases strategy request <;> simp

/-- C8 as stated fails: a GET request with an `img` parameter to the host
`n-abc-script.googleusercontent.com`, which is neither of the two hostnames,
is classified as data traffic and served stale while revalidate. -/
theorem strategy_matches_hosts_by_substring :
    strategy userContentImage = .staleWhileRevalidate ∧
    userContentImage.url.hostname ≠ "script.google.com" ∧
    userContentImage.url.hostname ≠ "script.googleusercontent.com" := by
  decide

theorem cachePutAccepts_iff (request : Request) (response : Response) :
    cachePutAccepts request response = true ↔
      ((request.url.protocol = "http:" ∨ request.url.protocol = "https:") ∧
        request.method = "GET" ∧ response.status ≠ 206 ∧ varyStar response = false) := by
  unfold cachePutAccepts
  simp [and_assoc]

/-- Cache lookups leave the fragment out: a cached `index.html` answers a
request for `index.html#top`. -/
theorem cacheMatch_ignores_fragment :
    cacheMatch [(shellRequest, okResponse)] shellRequestAtTop = some okResponse := by
  decide

/-- C9, as the code has it. The network-first handler: a network response
with status 200 is returned, and afterwards it answers the request in the
runtime partition when `cache.put` accepts the pair, while the entries of
the runtime partition stay as they were when `cache.put` rejects it; a
network response with another status is returned and nothing is stored;
when the network fails, the first cached match over all partitions is
returned, untouched, if a partition has one, and a response with status 503
is returned if no partition has one; the promise always resolves with a
response. `cache.put` accepts the pair exactly for a GET request over http
or https and a response that is neither a 206 nor carries `Vary: *`. -/
theorem networkFirst_behaviour (network : Option Response) (request : Request)
    (caches : CacheStorage) :
    (∀ response, network = some response → response.status = 200 →
      (networkFirst network request caches).2 = .resolved (some response) ∧
      (cachePutAccepts request response = true →
        cacheMatch (partition (networkFirst network request caches).1 RUNTIME_CACHE) request
          = some response) ∧
      (cachePutAccepts request response = false →
        (networkFirst network request caches).1 = cachesOpen caches RUNTIME_CACHE ∧
        partition (networkFirst network request caches).1 RUNTIME_CACHE =
          partition caches RUNTIME_CACHE)) ∧
    (∀ response, network = some response → response.status ≠ 200 →
      networkFirst network request caches = (caches, .resolved (some response))) ∧
    (network = none → ∀ c, c ∈ caches → (cacheMatch c.2 request).isSome = true →
      ∃ cached, (∃ d, d ∈ caches ∧ cacheMatch d.2 request = some cached) ∧
        cachesMatch caches request = some cached ∧
        networkFirst network request caches = (caches, .resolved (some cached))) ∧
    (network = none → (∀ c, c ∈ caches → cacheMatch c.2 request = none) →
      networkFirst network request caches = (caches, .resolved (some offlineResponse)) ∧
      offlineResponse.status = 503) ∧
    (∃ response, (networkFirst network request caches).2 = .resolved (some response)) ∧
    (∀ response, cachePutAccepts request response = true ↔
      ((request.url.protocol = "http:" ∨ request.url.protocol = "https:") ∧
        request.method = "GET" ∧ response.status ≠ 206 ∧ varyStar response = false)) := by
  refine ⟨?_, ?_, ?_, ?_, ?_, cachePutAccepts_iff request⟩
  · intro response hn hs
    subst hn
    have hne : (response.status != 200) = false := by simp [hs]
    have hrun : networkFirst (some response) request caches =
        (putIn (cachesOpen caches RUNTIME_CACHE) RUNTIME_CACHE request response,
          .resolved (some response)) := by
      unfold networkFirst
      simp only [hne, Bool.false_eq_true, if_false]
    rw [hrun]
    refine ⟨rfl, ?_, ?_⟩
    · intro hacc
      dsimp only
      rw [partition_putIn_cachesOpen _ _ _ _ hacc, cacheMatch_cachePut]
    · intro href
      dsimp only
      rw [putIn_of_refused _ _ _ _ href]
      exact ⟨rfl, partition_cachesOpen caches RUNTIME_CACHE⟩
  · intro response hn hs
    subst hn
    have hne : (response.status != 200) = true := by simp [hs]
    unfold networkFirst
    simp only [hne, if_true]
  · intro hn c hc hsome
    subst hn
    cases hm : cachesMatch caches request with
    | none =>
      unfold cachesMatch at hm
      rw [List.findSome?_eq_none_iff] at hm
      rw [hm c hc] at hsome
      cases hsome
    | some cached =>
      refine ⟨cached, ?_, rfl, ?_⟩
      · unfold cachesMatch at hm
        obtain ⟨d, hd, hdm⟩ := List.exists_of_findSome?_eq_some hm
        exact ⟨d, hd, hdm⟩
      · unfold networkFirst
        simp only [hm]
  · intro hn hnone
    subst hn
    have hm : cachesMatch caches request = none := by
      unfold cachesMatch
      rw [List.findSome?_eq_none_iff]
      exact hnone
    unfold networkFirst
    simp only [hm]
    exact ⟨trivial, rfl⟩
  · unfold networkFirst
    cases network with
    | some response =>
      dsimp only
      split_ifs
      · exact ⟨response, rfl⟩
      · exact ⟨response, rfl⟩
    | none =>
      dsimp only
      cases cachesMatch caches request with
      | some cached => exact ⟨cached, rfl⟩
      | none => exact ⟨offlineResponse, rfl⟩

/-- C9 as stated fails: a response with status 200 that carries `Vary: *` is
returned by the network-first handler, but `cache.put` rejects it, and the
runtime partition has no entry for the request afterwards. -/
theorem networkFirst_returns_vary_star_unstored :
    varyStarResponse.status = 200 ∧
    (networkFirst (some varyStarResponse) shellRequest []).2
      = .resolved (some varyStarResponse) ∧
    cacheMatch (partition (networkFirst (some varyStarResponse) shellRequest []).1
      RUNTIME_CACHE) shellRequest = none ∧
    partition (networkFirst (some varyStarResponse) shellRequest []).1 RUNTIME_CACHE = [] := by
  refine ⟨rfl, ?_, ?_, ?_⟩
  · rfl
  · decide
  · decide

/-- C10, as the code has it. Stale while revalidate on the image partition:
(a) without a match and with a failing fetch the promise resolves without a
response and the partition is unchanged; (b) without a match and with an ok
network response, that response is returned, and the partition gains the
one entry for the request when `cache.put` accepts the pair and stays as it
was when `cache.put` rejects it; a response that is not ok is returned
without being stored; (c) with a match, the cached response is returned
whatever the network does, an ok network response that `cache.put` accepts
replaces the entry of the request, and a failed fetch, a response that is
not ok and a pair that `cache.put` rejects leave the cache storage
unchanged. `cache.put` accepts the pair exactly for a GET request over
http or https and a response that is neither a 206 nor carries `Vary: *`. -/
theorem staleWhileRevalidate_behaviour (network : Option Response) (request : Request)
    (caches : CacheStorage) :
    (cacheMatch (partition caches IMAGE_CACHE) request = none → network = none →
      (staleWhileRevalidate network request caches).2 = .resolved none ∧
      partition (staleWhileRevalidate network request caches).1 IMAGE_CACHE =
        partition caches IMAGE_CACHE) ∧
    (∀ response, cacheMatch (partition caches IMAGE_CACHE) request = none →
      network = some response → response.ok = true →
      (staleWhileRevalidate network request caches).2 = .resolved (some response) ∧
      (cachePutAccepts request response = true →
        partition (staleWhileRevalidate network request caches).1 IMAGE_CACHE =
          partition caches IMAGE_CACHE ++ [(request, response)]) ∧
      (cachePutAccepts request response = false →
        partition (staleWhileRevalidate network request caches).1 IMAGE_CACHE =
          partition caches IMAGE_CACHE)) ∧
    (∀ response, cacheMatch (partition caches IMAGE_CACHE) request = none →
      network = some response → response.ok = false →
      (staleWhileRevalidate network request caches).2 = .resolved (some response) ∧
      partition (staleWhileRevalidate network request caches).1 IMAGE_CACHE =
        partition caches IMAGE_CACHE) ∧
    (∀ cached, cacheMatch (partition caches IMAGE_CACHE) request = some cached →
      (staleWhileRevalidate network request caches).2 = .resolved (some cached)) ∧
    (∀ cached response, cacheMatch (partition caches IMAGE_CACHE) request = some cached →
      network = some response → response.ok = true →
      cachePutAccepts request response = true →
      partition (staleWhileRevalidate network request caches).1 IMAGE_CACHE =
        cachePut (partition caches IMAGE_CACHE) request response ∧
      cacheMatch (partition (staleWhileRevalidate network request caches).1 IMAGE_CACHE)
        request = some response ∧
      (partition (staleWhileRevalidate network request caches).1 IMAGE_CACHE).length =
        (partition caches IMAGE_CACHE).length) ∧
    (∀ cached, cacheMatch (partition caches IMAGE_CACHE) request = some cached →
      (network = none ∨
        ∃ response, network = some response ∧
          (response.ok = false ∨ cachePutAccepts request response = false)) →
      (staleWhileRevalidate network request caches).1 = caches) ∧
    (∀ response, cachePutAccepts request response = true ↔
      ((request.url.protocol = "http:" ∨ request.url.protocol = "https:") ∧
        request.method = "GET" ∧ response.status ≠ 206 ∧ varyStar response = false)) := by
  have hpart := partition_cachesOpen caches IMAGE_CACHE
  have hput := partition_putIn_cachesOpen caches IMAGE_CACHE request
  refine ⟨?_, ?_, ?_, ?_, ?_, ?_, cachePutAccepts_iff request⟩
  · intro hmiss hn
    subst hn
    unfold staleWhileRevalidate
    simp only [hpart, hmiss]
    exact ⟨trivial, trivial⟩
  · intro response hmiss hn hok
    subst hn
    have hrun : staleWhileRevalidate (some response) request caches =
        (putIn (cachesOpen caches IMAGE_CACHE) IMAGE_CACHE request response,
          .resolved (some response)) := by
      unfold staleWhileRevalidate
      simp only [hpart, hmiss, hok, if_true]
    rw [hrun]
    refine ⟨rfl, ?_, ?_⟩
    · intro hacc
      dsimp only
      rw [hput response hacc, cachePut_of_no_match _ _ _ hmiss]
    · intro href
      dsimp only
      rw [putIn_of_refused _ _ _ _ href]
      exact hpart
  · intro response hmiss hn hok
    subst hn
    unfold staleWhileRevalidate
    simp only [hpart, hmiss, hok, Bool.false_eq_true, if_false]
    exact ⟨trivial, trivial⟩
  · intro cached hhit
    unfold staleWhileRevalidate
    simp only [hpart, hhit]
  · intro cached response hhit hn hok hacc
    subst hn
    have hafter : partition (staleWhileRevalidate (some response) request caches).1 IMAGE_CACHE
        = cachePut (partition caches IMAGE_CACHE) request response := by
      unfold staleWhileRevalidate
      simp only [hpart, hhit, hok, if_true]
      exact hput response hacc
    rw [hafter]
    exact ⟨rfl, cacheMatch_cachePut _ _ _, length_cachePut_of_match _ _ _ cached hhit⟩
  · intro cached hhit hnet
    have hopen : cachesOpen caches IMAGE_CACHE = caches := by
      unfold cachesOpen
      cases hl : List.lookup IMAGE_CACHE caches with
      | some c => rfl
      | none =>
        unfold partition at hhit
        rw [hl] at hhit
        cases hhit
    rcases hnet with hn | ⟨response, hn, hbad⟩
    · subst hn
      unfold staleWhileRevalidate
      simp only [hpart, hhit, hopen]
    · subst hn
      by_cases hok : response.ok = true
      · have href : cachePutAccepts request response = false := by
          rcases hbad with h | h
          · rw [hok] at h; cases h
          · exact h
        unfold staleWhileRevalidate
        simp only [hpart, hhit, hok, if_true, hopen, putIn_of_refused _ _ _ _ href]
      · have hok2 : response.ok = false := by simpa using hok
        unfold staleWhileRevalidate
        simp only [hpart, hhit, hok2, Bool.false_eq_true, if_false, hopen]

/-- C10 as stated fails: with an empty image partition, an ok response with
status 206 is returned by the image branch, but `cache.put` rejects it and
the image partition gains no entry. -/
theorem staleWhileRevalidate_returns_range_response_unstored :
    rangeResponse.ok = true ∧
    (staleWhileRevalidate (some rangeResponse) userContentImage []).2
      = .resolved (some rangeResponse) ∧
    partition (staleWhileRevalidate (some rangeResponse) userContentImage []).1 IMAGE_CACHE
      = [] := by
  refine ⟨by decide, ?_, ?_⟩
  · rfl
  · decide

end ServiceWorker

/-! ## Lifecycle of the service workers -/

section Lifecycle

open ServiceWorker

theorem foldl_cachesDelete (names : List String) (caches : CacheStorage) :
    names.foldl cachesDelete caches = caches.filter (fun c => !names.contains c.1) := by
  induction names generalizing caches with
  | nil => simp
  | cons n rest ih =>
    rw [List.foldl_cons, ih]
    unfold cachesDelete
    rw [List.filter_filter]
    apply List.filter_congr
    intro c _
    by_cases h : c.1 = n
    · simp [h]
    · simp [List.contains_cons, h]

theorem foldl_delete_unless (keep : String → Bool) (names : List String)
    (caches : CacheStorage) :
    names.foldl (fun cs n => if !keep n then cachesDelete cs n else cs) caches =
      caches.filter (fun c => keep c.1 || !names.contains c.1) := by
  induction names generalizing caches with
  | nil => simp
  | cons n rest ih =>
    rw [List.foldl_cons, ih]
    by_cases hk : keep n = true
    · simp only [hk, Bool.not_true, Bool.false_eq_true, if_false]
      apply List.filter_congr
      intro c _
      by_cases h : c.1 = n
      · simp [h, hk]
      · simp [List.contains_cons, h]
    · have hk2 : keep n = false := by simpa using hk
      simp only [hk2, Bool.not_false, if_true]
      unfold cachesDelete
      rw [List.filter_filter]
      apply List.filter_congr
      intro c _
      by_cases h : c.1 = n
      · simp [h, hk2]
      · simp [List.contains_cons, h]

theorem contains_iff (names : List String) (name : String) :
    names.contains name = true ↔ name ∈ names := List.elem_iff

theorem mem_cachesKeys (caches : CacheStorage) (c : String × Cache) (hc : c ∈ caches) :
    c.1 ∈ cachesKeys caches := List.mem_map_of_mem Prod.fst hc

theorem activate_caches (caches : CacheStorage) :
    (ServiceWorker.activate caches).caches =
      caches.filter (fun c => currentCaches.contains c.1) := by
  unfold ServiceWorker.activate
  dsimp only
  rw [foldl_cachesDelete]
  apply List.filter_congr
  intro c hc
  have hmem := mem_cachesKeys caches c hc
  cases hcur : currentCaches.contains c.1 with
  | true =>
    have hnot : ¬ c.1 ∈ (cachesKeys caches).filter (fun n => !currentCaches.contains n) := by
      intro h
      have h2 := (List.mem_filter.mp h).2
      rw [hcur] at h2
      cases h2
    have hd : ((cachesKeys caches).filter (fun n => !currentCaches.contains n)).contains c.1
        = false := by
      cases hx : ((cachesKeys caches).filter (fun n => !currentCaches.contains n)).contains c.1
      · rfl
      · exact absurd ((contains_iff _ _).mp hx) hnot
    rw [hd]
    rfl
  | false =>
    have hin : c.1 ∈ (cachesKeys caches).filter (fun n => !currentCaches.contains n) :=
      List.mem_filter.mpr ⟨hmem, by rw [hcur]; rfl⟩
    rw [(contains_iff _ _).mpr hin]
    rfl

theorem sw_activate_caches (caches : CacheStorage) :
    (Sw.activate caches).caches =
      caches.filter (fun c => [Sw.CACHE_NAME, Sw.RUNTIME_CACHE].contains c.1) := by
  unfold Sw.activate
  dsimp only
  have h := foldl_delete_unless (fun n => [Sw.CACHE_NAME, Sw.RUNTIME_CACHE].contains n)
    (cachesKeys caches) caches
  have hfun : (fun (cs : CacheStorage) (cacheName : String) =>
      if (cacheName != Sw.CACHE_NAME && cacheName != Sw.RUNTIME_CACHE) = true then
        cachesDelete cs cacheName else cs) =
      (fun cs n => if (!(fun n => [Sw.CACHE_NAME, Sw.RUNTIME_CACHE].contains n) n) = true then
        cachesDelete cs n else cs) := by
    funext cs n
    have hb : (n != Sw.CACHE_NAME && n != Sw.RUNTIME_CACHE) =
        !([Sw.CACHE_NAME, Sw.RUNTIME_CACHE].contains n) := by
      by_cases h1 : n = Sw.CACHE_NAME
      · simp [h1]
      · by_cases h2 : n = Sw.RUNTIME_CACHE
        · simp [h2]
        · simp [h1, h2]
    rw [hb]
  rw [hfun, h]
  apply List.filter_congr
  intro c hc
  have hmem : (cachesKeys caches).contains c.1 = true :=
    (contains_iff _ _).mpr (mem_cachesKeys caches c hc)
  rw [hmem]
  simp

theorem cachesKeys_filter (p : String → Bool) (caches : CacheStorage) :
    cachesKeys (caches.filter (fun c => p c.1)) = (cachesKeys caches).filter p := by
  unfold cachesKeys
  induction caches with
  | nil => rfl
  | cons c rest ih =>
    by_cases h : p c.1 = true
    · simp only [List.filter_cons, List.map_cons, h, if_true, ih]
    · simp only [List.filter_cons, List.map_cons, h, Bool.false_eq_true, if_false, ih]

theorem cacheMatch_isSome_iff (cache : Cache) (q : Request) :
    (cacheMatch cache q).isSome = true ↔ ∃ e, e ∈ cache ∧ requestMatches q e.1 = true := by
  unfold cacheMatch
  rw [Option.isSome_map']
  exact List.find?_isSome

theorem cacheMatch_cachePut_isSome (cache : Cache) (r q : Request) (response : Response)
    (h : (cacheMatch cache q).isSome = true) :
    (cacheMatch (cachePut cache r response) q).isSome = true := by
  rw [cacheMatch_isSome_iff] at h ⊢
  obtain ⟨e, he, hm⟩ := h
  unfold cachePut
  split_ifs with hany
  · by_cases hr : requestMatches r e.1 = true
    · refine ⟨(r, response), ?_, ?_⟩
      · exact List.mem_map.mpr ⟨e, he, by rw [if_pos hr]⟩
      · unfold requestMatches at hr hm ⊢
        have h1 : cacheUrl e.1 = cacheUrl r := by simpa using hr
        have h2 : cacheUrl e.1 = cacheUrl q := by simpa using hm
        simp [← h1, h2]
    · exact ⟨e, List.mem_map.mpr ⟨e, he, by rw [if_neg hr]⟩, hm⟩
  · exact ⟨e, List.mem_append_left _ he, hm⟩

theorem cacheMatch_addAll_step (network : Request → Option Response)
    (requests : List Request) (cache : Cache) (q : Request)
    (h : (cacheMatch cache q).isSome = true ∨
      (q ∈ requests ∧ ∃ response, network q = some response)) :
    (cacheMatch (requests.foldl
      (fun c r =>
        match network r with
        | some response => cachePut c r response
        | none => c)
      cache) q).isSome = true := by
  induction requests generalizing cache with
  | nil =>
    rcases h with h | ⟨hq, _⟩
    · exact h
    · cases hq
  | cons r rest ih =>
    rw [List.foldl_cons]
    apply ih
    rcases h with h | ⟨hq, response, hresp⟩
    · left
      cases hn : network r with
      | none => exact h
      | some resp => exact cacheMatch_cachePut_isSome cache r q resp h
    · rcases List.mem_cons.mp hq with hq | hq
      · left
        subst hq
        rw [hresp]
        dsimp only
        rw [cacheMatch_cachePut]
        rfl
      · exact Or.inr ⟨hq, response, hresp⟩

theorem cacheAddAll_eq_none_of_failure (network : Request → Option Response) (cache : Cache)
    (requests : List Request) (r : Request) (hr : r ∈ requests)
    (hfail : network r = none ∨ ∃ response, network r = some response ∧ response.ok = false) :
    cacheAddAll network cache requests = none := by
  unfold cacheAddAll
  rw [if_neg]
  intro hall
  have h := List.all_eq_true.mp hall r hr
  rcases hfail with hn | ⟨response, hn, hok⟩
  · rw [hn] at h
    cases h
  · rw [hn] at h
    dsimp only at h
    rw [hok] at h
    simp at h

theorem cacheAddAll_some (network : Request → Option Response) (cache filled : Cache)
    (requests : List Request) (h : cacheAddAll network cache requests = some filled) :
    ∀ r, r ∈ requests →
      (∃ response, network r = some response ∧ response.ok = true) ∧
      (cacheMatch filled r).isSome = true := by
  unfold cacheAddAll at h
  split_ifs at h with hall
  injection h with h
  intro r hr
  have hone := List.all_eq_true.mp hall r hr
  have hnet : ∃ response, network r = some response ∧ response.ok = true := by
    cases hn : network r with
    | none => rw [hn] at hone; cases hone
    | some response =>
      rw [hn] at hone
      dsimp only at hone
      rw [Bool.and_eq_true] at hone
      exact ⟨response, rfl, hone.1⟩
  refine ⟨hnet, ?_⟩
  rw [← h]
  obtain ⟨response, hn, _⟩ := hnet
  exact cacheMatch_addAll_step network requests cache r (Or.inr ⟨hr, response, hn⟩)

theorem partition_setPartition_cachesOpen (caches : CacheStorage) (name : String)
    (cache : Cache) :
    partition (setPartition (cachesOpen caches name) name cache) name = cache := by
  obtain ⟨c, hc⟩ := lookup_cachesOpen_isSome caches name
  have hl : ∀ (cs : CacheStorage), List.lookup name (setPartition cs name cache) =
      (List.lookup name cs).map (fun _ => cache) := by
    intro cs
    unfold setPartition
    induction cs with
    | nil => rfl
    | cons x rest ih =>
      obtain ⟨n, old⟩ := x
      by_cases h : n = name
      · subst h
        simp only [List.map_cons, beq_self_eq_true, if_true, List.lookup_cons_self,
          Option.map_some']
      · have h2 : (name == n) = false := by simpa using fun h3 => h h3.symm
        have h1 : (n == name) = false := by simpa using h
        simp only [List.map_cons, h1, Bool.false_eq_true, if_false]
        rw [List.lookup_cons, List.lookup_cons, h2]
        exact ih
  unfold partition
  rw [hl, hc]
  rfl

end Lifecycle

open ServiceWorker in
/-- C11. On activation the cache storage that remains is the existing one
restricted to the current names: a partition is present afterwards, with
the same entries, exactly when it existed before and its name is one of
the three current names of `service-worker.js` (of the two current names
in `sw.js`); the names afterwards are the current ones among the names
before, so no partition is created; the promise handed to `waitUntil`
resolves and the clients are claimed. -/
theorem activate_keeps_exactly_current_partitions (caches : CacheStorage) :
    ((ServiceWorker.activate caches).caches =
      caches.filter (fun c => ServiceWorker.currentCaches.contains c.1)) ∧
    (∀ name cache, (name, cache) ∈ (ServiceWorker.activate caches).caches ↔
      ((name, cache) ∈ caches ∧
        (name = "catalogue-pwa-v10-0" ∨ name = "catalogue-runtime-v10-0" ∨
          name = "catalogue-images-v10-0"))) ∧
    (ServiceWorker.cachesKeys (ServiceWorker.activate caches).caches =
      (ServiceWorker.cachesKeys caches).filter
        (fun n => ServiceWorker.currentCaches.contains n)) ∧
    ((Sw.activate caches).caches =
      caches.filter (fun c => [Sw.CACHE_NAME, Sw.RUNTIME_CACHE].contains c.1)) ∧
    (∀ name cache, (name, cache) ∈ (Sw.activate caches).caches ↔
      ((name, cache) ∈ caches ∧
        (name = "catalogue-v1.0.0" ∨ name = "catalogue-runtime-v1.0.0"))) ∧
    (ServiceWorker.cachesKeys (Sw.activate caches).caches =
      (ServiceWorker.cachesKeys caches).filter
        (fun n => [Sw.CACHE_NAME, Sw.RUNTIME_CACHE].contains n)) ∧
    ((ServiceWorker.activate caches).waitUntil = .resolved () ∧
      (ServiceWorker.activate caches).clientsClaim = true ∧
      (Sw.activate caches).waitUntil = .resolved () ∧
      (Sw.activate caches).clientsClaim = true) := by
  have h1 := activate_caches caches
  have h2 := sw_activate_caches caches
  refine ⟨h1, ?_, ?_, h2, ?_, ?_, ⟨rfl, rfl, rfl, rfl⟩⟩
  · intro name cache
    rw [h1, List.mem_filter]
    have hc : ServiceWorker.currentCaches.contains name = true ↔
        (name = "catalogue-pwa-v10-0" ∨ name = "catalogue-runtime-v10-0" ∨
          name = "catalogue-images-v10-0") := by
      rw [contains_iff]
      simp [ServiceWorker.currentCaches, ServiceWorker.CACHE_NAME,
        ServiceWorker.RUNTIME_CACHE, ServiceWorker.IMAGE_CACHE]
    exact and_congr_right (fun _ => hc)
  · rw [h1]
    exact cachesKeys_filter (fun n => ServiceWorker.currentCaches.contains n) caches
  · intro name cache
    rw [h2, List.mem_filter]
    have hc : [Sw.CACHE_NAME, Sw.RUNTIME_CACHE].contains name = true ↔
        (name = "catalogue-v1.0.0" ∨ name = "catalogue-runtime-v1.0.0") := by
      rw [contains_iff]
      simp [Sw.CACHE_NAME, Sw.RUNTIME_CACHE]
    exact and_congr_right (fun _ => hc)
  · rw [h2]
    exact cachesKeys_filter (fun n => [Sw.CACHE_NAME, Sw.RUNTIME_CACHE].contains n) caches

open ServiceWorker in
/-- C12, as the code has it. In `service-worker.js`, when the fetch of a
manifest entry fails the promise handed to `waitUntil` rejects,
`skipWaiting` is not called and the precache partition keeps its entries;
the promise resolves exactly when `skipWaiting` is called, and then every
manifest entry was fetched with an ok response and has a match in the
precache partition. In `sw.js` the promise handed to `waitUntil` always
resolves; when the fetch of a manifest entry fails `skipWaiting` is not
called and the precache partition keeps its entries, and when `skipWaiting`
is called every manifest entry was fetched with an ok response and has a
match in the precache partition. -/
theorem install_precache_then_skipWaiting (resolveUrl : String → ServiceWorker.Request)
    (network : ServiceWorker.Request → Option ServiceWorker.Response)
    (caches : ServiceWorker.CacheStorage) :
    ((∃ url, url ∈ ServiceWorker.PRECACHE_ASSETS ∧ network (resolveUrl url) = none) →
      (ServiceWorker.install resolveUrl network caches).waitUntil = .rejected ∧
      (ServiceWorker.install resolveUrl network caches).skipWaiting = false ∧
      ServiceWorker.partition (ServiceWorker.install resolveUrl network caches).caches
        ServiceWorker.CACHE_NAME = ServiceWorker.partition caches ServiceWorker.CACHE_NAME) ∧
    ((ServiceWorker.install resolveUrl network caches).waitUntil = .resolved () ↔
      (ServiceWorker.install resolveUrl network caches).skipWaiting = true) ∧
    ((ServiceWorker.install resolveUrl network caches).skipWaiting = true →
      ∀ url, url ∈ ServiceWorker.PRECACHE_ASSETS →
        (∃ response, network (resolveUrl url) = some response ∧ response.ok = true) ∧
        (ServiceWorker.cacheMatch
          (ServiceWorker.partition (ServiceWorker.install resolveUrl network caches).caches
            ServiceWorker.CACHE_NAME) (resolveUrl url)).isSome = true) ∧
    ((Sw.install resolveUrl network caches).waitUntil = .resolved ()) ∧
    ((∃ url, url ∈ Sw.PRECACHE_URLS ∧ network (resolveUrl url) = none) →
      (Sw.install resolveUrl network caches).skipWaiting = false ∧
      ServiceWorker.partition (Sw.install resolveUrl network caches).caches Sw.CACHE_NAME =
        ServiceWorker.partition caches Sw.CACHE_NAME) ∧
    ((Sw.install resolveUrl network caches).skipWaiting = true →
      ∀ url, url ∈ Sw.PRECACHE_URLS →
        (∃ response, network (resolveUrl url) = some response ∧ response.ok = true) ∧
        (ServiceWorker.cacheMatch
          (ServiceWorker.partition (Sw.install resolveUrl network caches).caches
            Sw.CACHE_NAME) (resolveUrl url)).isSome = true) := by
  refine ⟨?_, ?_, ?_, ?_, ?_, ?_⟩
  · rintro ⟨url, hurl, hnone⟩
    have hfail := cacheAddAll_eq_none_of_failure network
      (ServiceWorker.partition (ServiceWorker.cachesOpen caches ServiceWorker.CACHE_NAME)
        ServiceWorker.CACHE_NAME)
      (ServiceWorker.PRECACHE_ASSETS.map resolveUrl) (resolveUrl url)
      (List.mem_map_of_mem resolveUrl hurl) (Or.inl hnone)
    unfold ServiceWorker.install
    simp only [hfail]
    exact ⟨trivial, trivial, ServiceWorker.partition_cachesOpen caches _⟩
  · unfold ServiceWorker.install
    dsimp only
    cases cacheAddAll network _ (ServiceWorker.PRECACHE_ASSETS.map resolveUrl) <;> simp
  · intro hskip url hurl
    unfold ServiceWorker.install at hskip ⊢
    dsimp only at hskip ⊢
    cases hadd : ServiceWorker.cacheAddAll network
        (ServiceWorker.partition (ServiceWorker.cachesOpen caches ServiceWorker.CACHE_NAME)
          ServiceWorker.CACHE_NAME) (ServiceWorker.PRECACHE_ASSETS.map resolveUrl) with
    | none => rw [hadd] at hskip; cases hskip
    | some filled =>
      dsimp only
      rw [partition_setPartition_cachesOpen]
      exact cacheAddAll_some network _ filled _ hadd (resolveUrl url)
        (List.mem_map_of_mem resolveUrl hurl)
  · unfold Sw.install
    dsimp only
    cases ServiceWorker.cacheAddAll network _ (Sw.PRECACHE_URLS.map resolveUrl) <;> rfl
  · rintro ⟨url, hurl, hnone⟩
    have hfail := cacheAddAll_eq_none_of_failure network
      (ServiceWorker.partition (ServiceWorker.cachesOpen caches Sw.CACHE_NAME) Sw.CACHE_NAME)
      (Sw.PRECACHE_URLS.map resolveUrl) (resolveUrl url)
      (List.mem_map_of_mem resolveUrl hurl) (Or.inl hnone)
    unfold Sw.install
    simp only [hfail]
    exact ⟨trivial, ServiceWorker.partition_cachesOpen caches _⟩
  · intro hskip url hurl
    unfold Sw.install at hskip ⊢
    dsimp only at hskip ⊢
    cases hadd : ServiceWorker.cacheAddAll network
        (ServiceWorker.partition (ServiceWorker.cachesOpen caches Sw.CACHE_NAME) Sw.CACHE_NAME)
        (Sw.PRECACHE_URLS.map resolveUrl) with
    | none => rw [hadd] at hskip; cases hskip
    | some filled =>
      dsimp only
      rw [partition_setPartition_cachesOpen]
      exact cacheAddAll_some network _ filled _ hadd (resolveUrl url)
        (List.mem_map_of_mem resolveUrl hurl)

open ServiceWorker in
/-- C12 as stated fails for `sw.js`: with every fetch failing, the promise
that its install listener hands to `waitUntil` resolves instead of
rejecting, although no manifest entry is stored. -/
theorem sw_install_resolves_when_precache_fails :
    (Sw.install ServiceWorker.sampleResolveUrl (fun _ => none) []).waitUntil = .resolved () ∧
    (Sw.install ServiceWorker.sampleResolveUrl (fun _ => none) []).waitUntil ≠ .rejected ∧
    ServiceWorker.partition
      (Sw.install ServiceWorker.sampleResolveUrl (fun _ => none) []).caches Sw.CACHE_NAME = [] := by
  refine ⟨rfl, ?_, rfl⟩
  intro h
  have h2 : (Sw.install ServiceWorker.sampleResolveUrl (fun _ => none) []).waitUntil
      = .resolved () := rfl
  rw [h2] at h
  cases h

/-! ## Keys of the tab family -/

section TabKeys

theorem toString_data (n : Nat) : (toString n).data = Nat.toDigits 10 n := rfl

theorem digitChar_value (k : Nat) (h : k < 10) : (Nat.digitChar k).toNat - 48 = k := by
  interval_cases k <;> rfl

theorem digitChar_isDigit (k : Nat) (h : k < 10) : (Nat.digitChar k).isDigit = true := by
  interval_cases k <;> rfl

theorem toDigitsCore_value (fuel n : Nat) (ds : List Char) (h : n < fuel) :
    digitsValue (Nat.toDigitsCore 10 fuel n ds) 0 = digitsValue ds n := by
  induction fuel generalizing n ds with
  | zero => omega
  | succ fuel ih =>
    unfold Nat.toDigitsCore
    dsimp only
    have hd := digitChar_value (n % 10) (Nat.mod_lt _ (by decide))
    by_cases h0 : n / 10 = 0
    · rw [if_pos h0]
      unfold digitsValue
      rw [List.foldl_cons, hd]
      congr 1
      omega
    · rw [if_neg h0]
      rw [ih (n / 10) _ (by omega)]
      unfold digitsValue
      rw [List.foldl_cons, hd]
      congr 1
      omega

theorem toDigitsCore_isDigit (fuel n : Nat) (ds : List Char)
    (hds : ∀ c, c ∈ ds → c.isDigit = true) :
    ∀ c, c ∈ Nat.toDigitsCore 10 fuel n ds → c.isDigit = true := by
  induction fuel generalizing n ds with
  | zero => exact hds
  | succ fuel ih =>
    unfold Nat.toDigitsCore
    dsimp only
    have hd := digitChar_isDigit (n % 10) (Nat.mod_lt _ (by decide))
    have hcons : ∀ c, c ∈ Nat.digitChar (n % 10) :: ds → c.isDigit = true := by
      intro c hc
      rcases List.mem_cons.mp hc with hc | hc
      · rw [hc]; exact hd
      · exact hds c hc
    by_cases h0 : n / 10 = 0
    · rw [if_pos h0]; exact hcons
    · rw [if_neg h0]; exact ih _ _ hcons

theorem takeWhile_append_stop (p : Char → Bool) (l r : List Char) (a : Char)
    (hl : ∀ c, c ∈ l → p c = true) (ha : p a = false) :
    (l ++ a :: r).takeWhile p = l := by
  induction l with
  | nil => simp [List.takeWhile, ha]
  | cons x rest ih =>
    have hx := hl x (List.mem_cons_self _ _)
    rw [List.cons_append, List.takeWhile_cons, if_pos hx,
      ih (fun c hc => hl c (List.mem_cons_of_mem _ hc))]

theorem toString_nat_injective (m n : Nat) (f g : List Char)
    (h : (toString m).data ++ '_' :: f = (toString n).data ++ '_' :: g) : m = n := by
  rw [toString_data, toString_data] at h
  have hm := toDigitsCore_isDigit (m + 1) m [] (fun c hc => by cases hc)
  have hn := toDigitsCore_isDigit (n + 1) n [] (fun c hc => by cases hc)
  have h1 := takeWhile_append_stop Char.isDigit (Nat.toDigits 10 m) f '_' hm (by decide)
  have h2 := takeWhile_append_stop Char.isDigit (Nat.toDigits 10 n) g '_' hn (by decide)
  rw [h, h2] at h1
  have vm := toDigitsCore_value (m + 1) m [] (by omega)
  have vn := toDigitsCore_value (n + 1) n [] (by omega)
  have hv : digitsValue (Nat.toDigits 10 n) 0 = digitsValue (Nat.toDigits 10 m) 0 := by rw [h1]
  unfold Nat.toDigits at hv
  rw [vm, vn] at hv
  exact hv.symm

theorem tabKey_data (n : Nat) (f : String) :
    (OfflineCacheService.tabKey n f).data =
      't' :: 'a' :: 'b' :: '_' :: ((toString n).data ++ '_' :: f.data) := by
  unfold OfflineCacheService.tabKey
  simp only [String.data_append, List.append_assoc]
  rfl

theorem tabKey_index_injective (m n : Nat) (f g : String)
    (h : OfflineCacheService.tabKey m f = OfflineCacheService.tabKey n g) : m = n := by
  have hd := congrArg String.data h
  rw [tabKey_data, tabKey_data] at hd
  injection hd with _ hd
  injection hd with _ hd
  injection hd with _ hd
  injection hd with _ hd
  exact toString_nat_injective m n _ _ hd

theorem tabKey_eq_iff (n : Nat) (f g : String) :
    OfflineCacheService.tabKey n f = OfflineCacheService.tabKey n g ↔ f = g := by
  constructor
  · intro h
    have hd := congrArg String.data h
    rw [tabKey_data, tabKey_data] at hd
    injection hd with _ hd
    injection hd with _ hd
    injection hd with _ hd
    injection hd with _ hd
    have h2 := List.append_cancel_left hd
    injection h2 with _ h2
    exact String.ext h2
  · intro h
    rw [h]

theorem tabKey_ne_snapshotKey (n : Nat) (f k : String) (hk : k ∈ snapshotKeys) :
    OfflineCacheService.tabKey n f ≠ k := by
  intro h
  have hd := congrArg (fun s => s.data.take 4) h
  dsimp only at hd
  rw [tabKey_data] at hd
  have htake : List.take 4 ('t' :: 'a' :: 'b' :: '_' :: ((toString n).data ++ '_' :: f.data))
      = ['t', 'a', 'b', '_'] := rfl
  rw [htake] at hd
  simp only [snapshotKeys, List.mem_cons, List.mem_singleton, List.not_mem_nil, or_false] at hk
  rcases hk with hk | hk | hk | hk | hk | hk | hk | hk | hk <;> subst hk <;>
    exact absurd hd (by decide)

end TabKeys

/-! ## Tab snapshots -/

section TabLemmas

theorem loadTabData_ok (env : Platform) (n : Nat) (s : OfflineCacheService)
    (store : ObjectStore) (hdb : s.db = some store)
    (hreads : ∀ i, i < 4 → env.requestFails (s.tick + i) = false) :
    (OfflineCacheService.loadTabData env n s).2 =
      if !(readOf store (OfflineCacheService.tabKey n "items")).truthy then .resolved none
      else .resolved (some ⟨readOf store (OfflineCacheService.tabKey n "items"),
        readOf store (OfflineCacheService.tabKey n "columnConfig"),
        readOf store (OfflineCacheService.tabKey n "layerConfig"),
        readOf store (OfflineCacheService.tabKey n "layersData")⟩) := by
  have h0 := hreads 0 (by omega)
  have h1 := hreads 1 (by omega)
  have h2 := hreads 2 (by omega)
  have h3 := hreads 3 (by omega)
  obtain ⟨db, isOnline, lastUpdated, cb, tick, journal⟩ := s
  simp only at hdb h0 h1 h2 h3
  subst hdb
  simp only [Nat.add_zero] at h0
  have hg : ∀ (key : String) (t : Nat), env.requestFails t = false →
      OfflineCacheService.get env key ⟨some store, isOnline, lastUpdated, cb, t, journal⟩ =
        (⟨some store, isOnline, lastUpdated, cb, t + 1, journal⟩, .resolved (readOf store key)) :=
    fun key t ht => get_ok env _ store key rfl ht
  simp only [OfflineCacheService.loadTabData, Async.tryCatch, bind, Async.andThen, Async.all,
    hg, h0, h1, h2, h3, Nat.add_assoc, Nat.reduceAdd, pure, Async.resolve]
  by_cases hc : (!(readOf store (OfflineCacheService.tabKey n "items")).truthy) = true
  · rw [if_pos hc, if_pos hc]; rfl
  · rw [if_neg hc, if_neg hc]; rfl

theorem readOf_storePut (store : ObjectStore) (r : CacheRecord) (key : String) :
    readOf (storePut store r) key = if r.key = key then r.data else readOf store key := by
  unfold readOf
  rw [storeGet_storePut]
  split_ifs <;> rfl

end TabLemmas

open OfflineCacheService in
/-- C13, as the code has it. On an opened store whose four reads succeed,
`loadTabData(n)` returns `null` exactly when there is no `tab_<n>_items`
record or the payload of that record is falsy; a record whose payload is an
array, the empty one included, gives the bundle of the four `tab_<n>_*`
keys, and a bundle that is returned carries what `get` returns for them;
`saveTabData(n, b)` followed by `loadTabData(n)` returns the four fields of
`b` when `b.items` is truthy and `null` otherwise; `saveTabData(n, b)`
leaves every key other than the four `tab_<n>_*` keys as it was, and
`loadTabData(n)` depends on those four keys only; the keys of another tab
index and the keys of the snapshot are different from them. -/
theorem loadTabData_null_iff_items_absent_or_falsy (env : Platform) (n : Nat)
    (s : OfflineCacheService) (store : ObjectStore) (hdb : s.db = some store)
    (hreads : ∀ i, i < 4 → env.requestFails (s.tick + i) = false) :
    ((loadTabData env n s).2 = .resolved none ↔
      (storeGet store (tabKey n "items") = none ∨
        ∃ r, storeGet store (tabKey n "items") = some r ∧ r.data.truthy = false)) ∧
    (∀ r xs, storeGet store (tabKey n "items") = some r → r.data = .arr xs →
      (loadTabData env n s).2 = .resolved (some ⟨.arr xs,
        readOf store (tabKey n "columnConfig"), readOf store (tabKey n "layerConfig"),
        readOf store (tabKey n "layersData")⟩)) ∧
    (∀ bundle, (loadTabData env n s).2 = .resolved (some bundle) →
      (OfflineCacheService.get env (tabKey n "items") s).2 = .resolved bundle.items ∧
      (OfflineCacheService.get env (tabKey n "columnConfig") s).2
        = .resolved bundle.columnConfig ∧
      (OfflineCacheService.get env (tabKey n "layerConfig") s).2
        = .resolved bundle.layerConfig ∧
      (OfflineCacheService.get env (tabKey n "layersData") s).2
        = .resolved bundle.layersData) ∧
    (∀ data : TabData, (∀ i, i < 8 → env.requestFails (s.tick + i) = false) →
      (saveTabData env n data s).2 = .resolved true ∧
      (loadTabData env n (saveTabData env n data s).1).2 =
        if data.items.truthy then .resolved (some data) else .resolved none) ∧
    (∀ (data : TabData) (key : String), key ∉ tabKeys n →
      ∃ store1, (saveTabData env n data s).1.db = some store1 ∧
        storeGet store1 key = storeGet store key) ∧
    (∀ s2 store2, s2.db = some store2 → s2.tick = s.tick →
      (∀ key, key ∈ tabKeys n → storeGet store2 key = storeGet store key) →
      (loadTabData env n s2).2 = (loadTabData env n s).2) ∧
    (∀ m f g, m ≠ n → tabKey m f ≠ tabKey n g) ∧
    (∀ f k, k ∈ snapshotKeys → tabKey n f ≠ k) := by
  have h0 : env.requestFails s.tick = false := by simpa using hreads 0 (by omega)
  have hload := loadTabData_ok env n s store hdb hreads
  have hget : ∀ key, (OfflineCacheService.get env key s).2 = .resolved (readOf store key) :=
    fun key => by rw [get_ok env s store key hdb h0]
  refine ⟨?_, ?_, ?_, ?_, ?_, ?_, ?_, ?_⟩
  · rw [hload]
    cases hrec : storeGet store (tabKey n "items") with
    | none => simp [readOf, hrec, JSVal.truthy]
    | some r =>
      cases ht : r.data.truthy with
      | false => simp [readOf, hrec, ht]
      | true => simp [readOf, hrec, ht]
  · intro r xs hr hdata
    rw [hload]
    have hro : readOf store (tabKey n "items") = .arr xs := by simp [readOf, hr, hdata]
    rw [hro]
    rfl
  · intro bundle hb
    rw [hload] at hb
    by_cases hc : (!(readOf store (tabKey n "items")).truthy) = true
    · rw [if_pos hc] at hb; cases hb
    · rw [if_neg hc] at hb
      cases hb
      exact ⟨hget _, hget _, hget _, hget _⟩
  · intro data hok
    obtain ⟨db, o, l, c, t, j⟩ := s
    simp only at hdb hok
    subst hdb
    obtain ⟨d1, d2, d3, d4⟩ := data
    have hk0 := hok 0 (by omega)
    have hk1 := hok 1 (by omega)
    have hk2 := hok 2 (by omega)
    have hk3 := hok 3 (by omega)
    simp only [Nat.add_zero] at hk0
    have hsave : saveTabData env n ⟨d1, d2, d3, d4⟩ ⟨some store, o, l, c, t, j⟩ =
        (⟨some (storePut (storePut (storePut (storePut store
            ⟨tabKey n "items", d1, env.toISOString (env.clock t)⟩)
            ⟨tabKey n "columnConfig", d2, env.toISOString (env.clock (t + 1))⟩)
            ⟨tabKey n "layerConfig", d3, env.toISOString (env.clock (t + 2))⟩)
            ⟨tabKey n "layersData", d4, env.toISOString (env.clock (t + 3))⟩),
          o, l, c, t + 4,
          j ++ [.put (tabKey n "items") d1] ++ [.put (tabKey n "columnConfig") d2] ++
            [.put (tabKey n "layerConfig") d3] ++ [.put (tabKey n "layersData") d4]⟩,
          .resolved true) := by
      simp only [saveTabData, bind_eq, pure_eq, andThen_save_opened, Async.tryCatch,
        Nat.add_assoc, Nat.reduceAdd, hk0, hk1, hk2, hk3, Bool.false_eq_true, if_false,
        Async.resolve]
    rw [hsave]
    refine ⟨rfl, ?_⟩
    rw [loadTabData_ok env n _ _ rfl
      (fun i hi => by simpa [Nat.add_assoc] using hok (4 + i) (by omega))]
    simp only [readOf_storePut, tabKey_eq_iff]
    simp only [String.reduceEq, if_false, if_true]
    cases d1.truthy <;> rfl
  · intro data key hkey
    simp only [tabKeys, List.mem_cons, List.mem_singleton, List.not_mem_nil, or_false,
      not_or] at hkey
    obtain ⟨hk1, hk2, hk3, hk4⟩ := hkey
    have e1 : ¬ tabKey n "items" = key := fun h => hk1 h.symm
    have e2 : ¬ tabKey n "columnConfig" = key := fun h => hk2 h.symm
    have e3 : ¬ tabKey n "layerConfig" = key := fun h => hk3 h.symm
    have e4 : ¬ tabKey n "layersData" = key := fun h => hk4 h.symm
    obtain ⟨db, o, l, c, t, j⟩ := s
    simp only at hdb
    subst hdb
    simp only [saveTabData, bind_eq, pure_eq, andThen_save_opened, Async.tryCatch,
      Nat.add_assoc, Nat.reduceAdd]
    by_cases f0 : env.requestFails t = true
    · simp [f0, Async.resolve]
    by_cases f1 : env.requestFails (t + 1) = true
    · simp [f0, f1, Async.resolve, storeGet_storePut, e1]
    by_cases f2 : env.requestFails (t + 2) = true
    · simp [f0, f1, f2, Async.resolve, storeGet_storePut, e1, e2]
    by_cases f3 : env.requestFails (t + 3) = true
    · simp [f0, f1, f2, f3, Async.resolve, storeGet_storePut, e1, e2, e3]
    · simp [f0, f1, f2, f3, Async.resolve, storeGet_storePut, e1, e2, e3, e4]
  · intro s2 store2 hdb2 htick hagree
    have hreads2 : ∀ i, i < 4 → env.requestFails (s2.tick + i) = false := by
      intro i hi
      rw [htick]
      exact hreads i hi
    rw [hload, loadTabData_ok env n s2 store2 hdb2 hreads2]
    have hr : ∀ key, key ∈ tabKeys n → readOf store2 key = readOf store key := by
      intro key hk
      unfold readOf
      rw [hagree key hk]
    rw [hr _ (by simp [tabKeys]), hr _ (by simp [tabKeys]), hr _ (by simp [tabKeys]),
      hr _ (by simp [tabKeys])]
  · intro m f g hmn h
    exact hmn (tabKey_index_injective m n f g h)
  · intro f k hk
    exact tabKey_ne_snapshotKey n f k hk

open OfflineCacheService in
/-- C13, at a concrete input: no tab was saved to a freshly opened store,
and `loadTabData(3)` returns `null`. -/
theorem loadTabData_null_iff_items_absent_or_falsy_witness :
    (loadTabData steadyPlatform 3 (opened true)).2 = .resolved none :=
  (loadTabData_null_iff_items_absent_or_falsy steadyPlatform 3 (opened true) [] rfl
    (fun _ _ => rfl)).1.mpr (Or.inl rfl)

open OfflineCacheService in
/-- C13 as stated fails: after `saveTabData(0, b)` with `b.items` equal to
`null`, the record `tab_0_items` is present and `loadTabData(0)` returns
`null`. -/
theorem loadTabData_null_with_record_present :
    (∃ store r,
      (saveTabData steadyPlatform 0 tabWithoutItems (opened true)).1.db = some store ∧
      storeGet store (tabKey 0 "items") = some r) ∧
    (loadTabData steadyPlatform 0
      (saveTabData steadyPlatform 0 tabWithoutItems (opened true)).1).2 = .resolved none :=
  ⟨⟨_, _, rfl, rfl⟩, rfl⟩

/-! ## The store as a map from keys to payloads -/

section Lookup

theorem foldl_lastWritten_none (key : String) (journal : List StoreEvent)
    (h : ∀ v, StoreEvent.put key v ∉ journal) :
    journal.foldl
      (fun acc e =>
        match e with
        | .put k v => if k = key then some v else acc
        | .cleared => none)
      none = none := by
  induction journal with
  | nil => rfl
  | cons e rest ih =>
    have hrest : ∀ v, StoreEvent.put key v ∉ rest :=
      fun v hv => h v (List.mem_cons_of_mem _ hv)
    rw [List.foldl_cons]
    cases e with
    | cleared => exact ih hrest
    | put k v =>
      have hk : ¬ k = key := by
        intro hk
        apply h v
        rw [hk]
        exact List.mem_cons_self _ _
      simp only [hk, if_false]
      exact ih hrest

theorem lastWritten_never_put (key : String) (journal : List StoreEvent)
    (h : ∀ v, StoreEvent.put key v ∉ journal) : lastWritten key journal = none :=
  foldl_lastWritten_none key journal h

theorem lastWritten_since_clear (key : String) (j1 j2 : List StoreEvent)
    (h : ∀ v, StoreEvent.put key v ∉ j2) :
    lastWritten key (j1 ++ StoreEvent.cleared :: j2) = none := by
  unfold lastWritten
  rw [List.foldl_append, List.foldl_cons]
  exact foldl_lastWritten_none key j2 h

theorem save_ok (env : Platform) (key : String) (data : JSVal) (s : OfflineCacheService)
    (store : ObjectStore) (hdb : s.db = some store) (h : env.requestFails s.tick = false) :
    OfflineCacheService.save env key data s =
      ({ s with
          db := some (storePut store ⟨key, data, env.toISOString (env.clock s.tick)⟩),
          tick := s.tick + 1, journal := s.journal ++ [.put key data] },
        .resolved true) := by
  obtain ⟨db, o, l, c, t, j⟩ := s
  simp only at hdb h
  subst hdb
  simp only [OfflineCacheService.save, h, Bool.false_eq_true, if_false]

end Lookup

open OfflineCacheService in
/-- C14. After any sequence of calls on a freshly opened store, a `get(key)`
whose request succeeds resolves with the payload last written under `key`
since the last clear and with `null` when there is none, in particular for
a key that was never written and for a key not written since the last
`clearCache()`; after a successful `save(key, v)` it resolves with `v`, a
second `save(key, v2)` makes it resolve with `v2`, and a `save` under one
key leaves what `get` returns for every other key unchanged. -/
theorem get_returns_last_write (env : Platform) (online : Bool) (calls : List Call)
    (s : OfflineCacheService) (hs : s = run env calls (opened online)) :
    (∀ key, env.requestFails s.tick = false →
      (OfflineCacheService.get env key s).2
        = .resolved ((lastWritten key s.journal).getD .null)) ∧
    (∀ key, env.requestFails s.tick = false → (∀ v, StoreEvent.put key v ∉ s.journal) →
      (OfflineCacheService.get env key s).2 = .resolved .null) ∧
    (∀ key j1 j2, env.requestFails s.tick = false →
      s.journal = j1 ++ StoreEvent.cleared :: j2 → (∀ v, StoreEvent.put key v ∉ j2) →
      (OfflineCacheService.get env key s).2 = .resolved .null) ∧
    (∀ key v, env.requestFails s.tick = false → env.requestFails (s.tick + 1) = false →
      (save env key v s).2 = .resolved true ∧
      (OfflineCacheService.get env key (save env key v s).1).2 = .resolved v) ∧
    (∀ key v v2, env.requestFails s.tick = false → env.requestFails (s.tick + 1) = false →
      env.requestFails (s.tick + 2) = false →
      (OfflineCacheService.get env key (save env key v2 (save env key v s).1).1).2
        = .resolved v2) ∧
    (∀ key other v, other ≠ key → env.requestFails s.tick = false →
      env.requestFails (s.tick + 1) = false →
      (OfflineCacheService.get env other (save env key v s).1).2
        = (OfflineCacheService.get env other s).2) := by
  have hag : StoreAgrees s := hs ▸ storeAgrees_run env calls _ (storeAgrees_opened online)
  obtain ⟨store, hdb, hkeys⟩ := hag
  have hget : ∀ key, env.requestFails s.tick = false →
      (OfflineCacheService.get env key s).2
        = .resolved ((lastWritten key s.journal).getD .null) := by
    intro key h0
    rw [get_ok env s store key hdb h0, readOf_eq_lastWritten s store key (hkeys key)]
  refine ⟨hget, ?_, ?_, ?_, ?_, ?_⟩
  · intro key h0 hnever
    rw [hget key h0, lastWritten_never_put key s.journal hnever]
    rfl
  · intro key j1 j2 h0 hj hsince
    rw [hget key h0, hj, lastWritten_since_clear key j1 j2 hsince]
    rfl
  · intro key v h0 h1
    rw [save_ok env key v s store hdb h0]
    refine ⟨rfl, ?_⟩
    rw [get_ok env _ _ key rfl h1, readOf_storePut]
    simp
  · intro key v v2 h0 h1 h2
    rw [save_ok env key v s store hdb h0, save_ok env key v2 _ _ rfl h1,
      get_ok env _ _ key rfl h2, readOf_storePut]
    simp
  · intro key other v hne h0 h1
    rw [save_ok env key v s store hdb h0, get_ok env _ _ other rfl h1,
      get_ok env s store other hdb h0, readOf_storePut]
    have hk : ¬ key = other := fun h => hne h.symm
    simp [hk]

open OfflineCacheService in
/-- C14, at a concrete input: after the sample bundle is saved and the
cache cleared, `get('items')` resolves with `null`. -/
theorem get_returns_last_write_witness :
    (OfflineCacheService.get steadyPlatform "items"
      (run steadyPlatform [.saveAppData sampleData, .clearCache] (opened true))).2
      = .resolved .null :=
  (get_returns_last_write steadyPlatform true [.saveAppData sampleData, .clearCache]
    _ rfl).1 "items" rfl

end Catalogue
